import Mathlib

/-! # ESP32 Command Station: turnout addressing, accessory packets, locomotive roster

A shallow embedding of `src/src/DCC/Turnouts.cpp` and
`src/src/ESP32TrainDatabase.cpp`.

Machine integers are natural numbers or integers with the conversion that a
store into a fixed-width variable performs written out:

* `uint16_t` / `uint8_t` values are `Nat`; storing an `int` into them is
  `toUInt16` / `toUInt8` (reduction modulo `2^16` / `2^8`);
* `int8_t` and `int` values are `Int`;
* arithmetic on operands narrower than `int` is done in `int` (integral
  promotion), so it is modelled in `Int` or, where no intermediate value can be
  negative, in `Nat`, without wrap-around.
-/

namespace ESP32CS

/-! ## Fixed-width stores -/

/-- Value of an `int` after it is stored into a `uint16_t`. -/
def toUInt16 (x : Int) : Nat := (x % 65536).toNat

/-- Value of an `int` after it is stored into a `uint8_t`. -/
def toUInt8 (x : Int) : Nat := (x % 256).toNat

/-- Value of an `int` after it is stored into an `int8_t`. -/
def toInt8 (x : Int) : Int := (x + 128) % 256 - 128

/-! ## `calculateTurnoutBoardAddressAndIndex` -/

/-- The `int` expression `(address + 3) / 4` of the first assignment; both
operands are non-negative, where every rounding convention of the division
agrees. -/
def boardAddressExpr (address : Nat) : Int := ((address : Int) + 3) / 4

/-- The `int` expression `(address - (*boardAddress * 4)) + 3` of the second
assignment, `boardAddress` being the `uint16_t` value already stored. -/
def boardIndexExpr (boardAddress address : Nat) : Int :=
  ((address : Int) - ((boardAddress : Int) * 4)) + 3

/-- Function `calculateTurnoutBoardAddressAndIndex`: the pair of values left in
`*boardAddress` (a `uint16_t`) and `*boardIndex` (a `uint8_t`). -/
def calculateTurnoutBoardAddressAndIndex (address : Nat) : Nat × Nat :=
  let boardAddress := toUInt16 (boardAddressExpr address)
  let boardIndex := toUInt8 (boardIndexExpr boardAddress address)
  (boardAddress, boardIndex)

/-! ## Accessory packet bytes (`AccessoryCommand::process`) -/

/-- The `int` pushed first: `0x80 + boardAddress % 64`. -/
def accessoryByte0 (boardAddress : Nat) : Nat := 0x80 + boardAddress % 64

/-- The `int` pushed second:
`((((boardAddress / 64) % 8) << 4) + (boardIndex % 4 << 1) + activate) ^ 0xF8`.
In C `%` binds tighter than `<<`, so `boardIndex % 4 << 1` is
`(boardIndex % 4) << 1`; `activate` is a `bool` promoted to `int`. -/
def accessoryByte1 (boardAddress boardIndex : Nat) (activate : Bool) : Nat :=
  ((((boardAddress / 64) % 8) <<< 4) + ((boardIndex % 4) <<< 1) + activate.toNat) ^^^ 0xF8

/-- Contents of `packetBuffer` after the two `push_back` calls; each pushed
`int` is narrowed to the `uint8_t` element type. -/
def accessoryPacket (boardAddress boardIndex : Nat) (activate : Bool) : List Nat :=
  [accessoryByte0 boardAddress % 256, accessoryByte1 boardAddress boardIndex activate % 256]

/-- The packet as the specification words it, with bitwise OR:
byte0 = `0x80 | (boardAddress mod 64)`, byte1 =
`(((boardAddress/64 mod 8) << 4) | ((boardIndex mod 4) << 1) | activate) XOR 0xF8`. -/
def encodeAccessoryPacket (boardAddress boardIndex : Nat) (activate : Bool) : List Nat :=
  [0x80 ||| (boardAddress % 64),
   ((((boardAddress / 64) % 8) <<< 4) ||| ((boardIndex % 4) <<< 1) ||| activate.toNat) ^^^ 0xF8]

/-! ## Strings (Arduino `String`) -/

/-- Characters that `atol` skips before the number (`isspace`). -/
def isspace (c : Char) : Bool :=
  c = ' ' || c = '\t' || c = '\n' || c = '\r' || c.toNat = 11 || c.toNat = 12

/-- Leading white space removed. -/
def skipSpaces : List Char → List Char
  | [] => []
  | c :: cs => if isspace c then skipSpaces cs else c :: cs

/-- Value of the longest prefix of decimal digits, continuing from `acc`. -/
def digitsValue : Nat → List Char → Nat
  | acc, [] => acc
  | acc, c :: cs => if c.isDigit then digitsValue (acc * 10 + (c.toNat - 48)) cs else acc

/-- C library `atol`: optional white space, optional sign, decimal digits; what
follows the digits is ignored and a text without digits gives 0. The result is
not bounded here (the C function is undefined beyond the range of `long`). -/
def atol (cs : List Char) : Int :=
  match skipSpaces cs with
  | '-' :: rest => -((digitsValue 0 rest : Nat) : Int)
  | '+' :: rest => ((digitsValue 0 rest : Nat) : Int)
  | rest => ((digitsValue 0 rest : Nat) : Int)

/-- Arduino `String::toInt()`, which is `atol` on the buffer. -/
def toInt (s : String) : Int := atol s.toList

/-- Arduino `String(value)` for an unsigned integer, and the `%d` conversion of
a non-negative value: the decimal digits. -/
def decimal (n : Nat) : String := toString n

/-- A `bool` promoted to `int`. -/
def boolToNat (b : Bool) : Nat := if b then 1 else 0

/-! ## Observable effects -/

/-- What a command leaves behind in its collaborators, in the order of the calls:
the invocation of the `a` command handler with its argument vector, a packet
handed to `dccSignal[DCC_SIGNAL_OPERATIONS]->loadPacket` with its repeat count,
a line given to `wifiInterface.print` and a line given to `wifiInterface.send`. -/
inductive Event where
  | accessory (arguments : List String)
  | loadPacket (packetBuffer : List Nat) (numberOfRepeats : Nat)
  | print (line : String)
  | send (line : String)
  deriving DecidableEq, Repr

/-- Response constant declared outside the translated file; the text is the one
the header comment of `Turnouts.cpp` documents (`returns: <O> if successful`). -/
def COMMAND_SUCCESSFUL_RESPONSE : String := "<O>"

/-- Response constant declared outside the translated file; the text is the one
the header comment of `Turnouts.cpp` documents (`<X> if unsuccessful`). -/
def COMMAND_FAILED_RESPONSE : String := "<X>"

/-- Method `AccessoryCommand::process`. `enabled` is the value of
`dccSignal[DCC_SIGNAL_OPERATIONS]->isEnabled()`. The result is `none` when the
code reads `arguments[k]` beyond the end of the vector (undefined in C++). -/
def AccessoryCommand.process (enabled : Bool) (arguments : List String) :
    Option (List Event) :=
  if enabled then
    match arguments with
    | a0 :: a1 :: a2 :: _ =>
      let boardAddress := toUInt16 (toInt a0)
      let boardIndex := toUInt8 (toInt a1)
      let activate := decide (toInt a2 = 1)
      some [Event.loadPacket (accessoryPacket boardAddress boardIndex activate) 1]
    | _ => none
  else some []

/-! ## `Turnout` -/

/-- Enumeration `TurnoutType` by its underlying `int`; the casts
`(TurnoutType)n` and `(int)type` of the source are then the identity. -/
abbrev TurnoutType := Int

/-- Enumerator 0, first entry of `TURNOUT_TYPE_STRINGS`. -/
def TurnoutType.LEFT : TurnoutType := 0
/-- Enumerator 1. -/
def TurnoutType.RIGHT : TurnoutType := 1
/-- Enumerator 2. -/
def TurnoutType.WYE : TurnoutType := 2
/-- Enumerator 3. -/
def TurnoutType.MULTI : TurnoutType := 3

/-- The data members of class `Turnout`. `_index` is a `uint8_t`: its address is
passed as the `uint8_t *boardIndex` of `calculateTurnoutBoardAddressAndIndex`. -/
structure Turnout where
  _turnoutID : Nat
  _address : Nat
  _index : Nat
  _boardAddress : Nat
  _thrown : Bool
  _type : TurnoutType
  deriving DecidableEq, Repr

/-- Constructor `Turnout::Turnout(turnoutID, address, index, thrown, type)`.
The member initialisers store `index` (an `int8_t`) into `_index` and 0 into
`_boardAddress`; the body replaces both when `index == -1`. -/
def Turnout.new (turnoutID address : Nat) (index : Int) (thrown : Bool)
    (type : TurnoutType) : Turnout :=
  let t : Turnout :=
    { _turnoutID := turnoutID, _address := address, _index := toUInt8 index,
      _boardAddress := 0, _thrown := thrown, _type := type }
  if index = -1 then
    let r := calculateTurnoutBoardAddressAndIndex t._address
    { t with _boardAddress := r.1, _index := r.2 }
  else t

/-- Method `Turnout::update`. -/
def Turnout.update (t : Turnout) (address : Nat) (index : Int) (type : TurnoutType) :
    Turnout :=
  let t1 : Turnout := { t with _address := address, _index := toUInt8 index, _type := type }
  if index = -1 then
    let r := calculateTurnoutBoardAddressAndIndex t1._address
    { t1 with _boardAddress := r.1, _index := r.2 }
  else t1

/-- The value stored under the state key of a turnout record: a boolean, or a
text. -/
inductive JsonState where
  | bool (b : Bool)
  | str (s : String)
  deriving DecidableEq, Repr

/-- ArduinoJson `get<bool>` on the state value: a boolean is itself; a text is
true when it is `true` or starts with a non-zero integer. -/
def JsonState.asBool : JsonState → Bool
  | JsonState.bool b => b
  | JsonState.str s => s == "true" || decide (toInt s ≠ 0)

/-- The turnout record of the persisted document, one field per key written
by `Turnout::toJson`; integer values are C `int`s. -/
structure TurnoutJson where
  id : Int
  address : Int
  boardAddress : Int
  subAddress : Int
  state : JsonState
  type : Int
  deriving DecidableEq, Repr

/-- Method `Turnout::toJson`. The texts `JSON_VALUE_THROWN` and
`JSON_VALUE_CLOSED` are declared outside the translated file and are
parameters. -/
def Turnout.toJson (JSON_VALUE_THROWN JSON_VALUE_CLOSED : String) (t : Turnout)
    (readableStrings : Bool) : TurnoutJson :=
  { id := t._turnoutID
    address := t._address
    boardAddress := t._boardAddress
    subAddress := if t._boardAddress ≠ 0 then -1 else (t._index : Int)
    state :=
      if readableStrings then
        (if t._thrown then JsonState.str JSON_VALUE_THROWN
         else JsonState.str JSON_VALUE_CLOSED)
      else JsonState.bool t._thrown
    type := t._type }

/-- Constructor `Turnout::Turnout(JsonObject &json)`. -/
def Turnout.fromJson (json : TurnoutJson) : Turnout :=
  let t : Turnout :=
    { _turnoutID := toUInt16 json.id, _address := toUInt16 json.address,
      _index := toUInt8 json.subAddress, _thrown := json.state.asBool,
      _type := json.type, _boardAddress := 0 }
  if json.subAddress = -1 then
    let r := calculateTurnoutBoardAddressAndIndex t._address
    { t with _boardAddress := r.1, _index := r.2 }
  else t

/-- Method `Turnout::set`; `enabled` is the state of the operations signal that
the `a` handler consults. The `a` handler receives `String(_boardAddress)`,
`String(_index)` and `String(_thrown)`. -/
def Turnout.set (enabled : Bool) (t : Turnout) (thrown : Bool)
    (sendDCCPacket : Bool) : Option (Turnout × List Event) :=
  let t1 : Turnout := { t with _thrown := thrown }
  let args : List String :=
    [decimal t1._boardAddress, decimal t1._index, decimal (boolToNat t1._thrown)]
  let line : String :=
    "<H " ++ decimal t1._turnoutID ++ " " ++ decimal (boolToNat t1._thrown) ++ ">"
  if sendDCCPacket then
    match AccessoryCommand.process enabled args with
    | some sent => some (t1, Event.accessory args :: sent ++ [Event.print line])
    | none => none
  else some (t1, [Event.print line])

/-- Modelled from the spec: `toggle()` is declared in the class header, which is
not among the translated files; it is "equivalent to `set(!thrown)`", with the
default `sendDCCPacket = true` of `set`. -/
def Turnout.toggle (enabled : Bool) (t : Turnout) : Option (Turnout × List Event) :=
  Turnout.set enabled t (!t._thrown) true

/-- Modelled from the spec: `setType` is declared in the class header, which is
not among the translated files; it stores the informational `type`. -/
def Turnout.setType (t : Turnout) (type : TurnoutType) : Turnout :=
  { t with _type := type }

/-- Method `Turnout::showStatus`: the line given to `wifiInterface.print`. -/
def Turnout.showStatus (t : Turnout) : Event :=
  Event.print ("<H " ++ decimal t._turnoutID ++ " " ++ decimal t._address ++ " " ++
    decimal t._index ++ " " ++ decimal (boolToNat t._thrown) ++ ">")

/-! ## `TurnoutManager`

The global `LinkedList<Turnout *> turnouts` is a `List Turnout` in iteration
order: `add` appends at the tail. Every node holds the pointer of its own
`new Turnout`, so a `Turnout *` into the list is represented by the position of
its node, `nullptr` by `none`, and `turnouts.remove(pointer)` removes the node
at that position. -/

/-- The loop shared by `getTurnoutByID` and `getTurnoutByAddress`: every node is
visited, `retval` is overwritten at each match, nothing stops the scan.
`position` is the position of the head of the remaining list. -/
def scanTurnouts (isMatch : Turnout → Bool) :
    List Turnout → Nat → Option Nat → Option Nat
  | [], _, retval => retval
  | turnout :: rest, position, retval =>
    scanTurnouts isMatch rest (position + 1)
      (if isMatch turnout then some position else retval)

/-- Method `TurnoutManager::getTurnoutByID`. -/
def getTurnoutByID (turnouts : List Turnout) (id : Nat) : Option Nat :=
  scanTurnouts (fun turnout => decide (turnout._turnoutID = id)) turnouts 0 none

/-- Method `TurnoutManager::getTurnoutByAddress`. -/
def getTurnoutByAddress (turnouts : List Turnout) (address : Nat) : Option Nat :=
  scanTurnouts (fun turnout => decide (turnout._address = address)) turnouts 0 none

/-- Method `TurnoutManager::getTurnoutCount`, a `uint16_t`. -/
def getTurnoutCount (turnouts : List Turnout) : Nat :=
  toUInt16 (turnouts.length : Int)

/-- The list after a member function has changed the object a pointer refers
to. -/
def modifyAt (f : Turnout → Turnout) : List Turnout → Nat → List Turnout
  | [], _ => []
  | turnout :: rest, 0 => f turnout :: rest
  | turnout :: rest, position + 1 => turnout :: modifyAt f rest position

/-- Method `TurnoutManager::createOrUpdate`: the list afterwards and the
returned pointer. -/
def createOrUpdate (turnouts : List Turnout) (id address : Nat) (index : Int)
    (type : TurnoutType) : List Turnout × Nat :=
  match getTurnoutByID turnouts id with
  | some position =>
    (modifyAt (fun turnout => turnout.update address index type) turnouts position, position)
  | none =>
    (turnouts ++ [Turnout.new id address index false type], turnouts.length)

/-- Method `TurnoutManager::removeByID`. -/
def removeByID (turnouts : List Turnout) (id : Nat) : List Turnout × Bool :=
  match getTurnoutByID turnouts id with
  | some position => (turnouts.eraseIdx position, true)
  | none => (turnouts, false)

/-- Method `TurnoutManager::removeByAddress`. -/
def removeByAddress (turnouts : List Turnout) (address : Nat) : List Turnout × Bool :=
  match getTurnoutByAddress turnouts address with
  | some position => (turnouts.eraseIdx position, true)
  | none => (turnouts, false)

/-- A member function with effects applied through a pointer into the list:
the list with the changed object, and the effects. -/
def applyAt (f : Turnout → Option (Turnout × List Event)) (turnouts : List Turnout)
    (position : Nat) : Option (List Turnout × List Event) :=
  match turnouts[position]? with
  | some turnout =>
    match f turnout with
    | some (changed, events) => some (turnouts.set position changed, events)
    | none => none
  | none => none

/-- Method `TurnoutManager::setByID`. -/
def setByID (enabled : Bool) (turnouts : List Turnout) (id : Nat) (thrown : Bool) :
    Option (List Turnout × List Event × Bool) :=
  match getTurnoutByID turnouts id with
  | some position =>
    match applyAt (fun turnout => turnout.set enabled thrown true) turnouts position with
    | some (changed, events) => some (changed, events, true)
    | none => none
  | none => some (turnouts, [], false)

/-- Method `TurnoutManager::toggleByID`. -/
def toggleByID (enabled : Bool) (turnouts : List Turnout) (id : Nat) :
    Option (List Turnout × List Event × Bool) :=
  match getTurnoutByID turnouts id with
  | some position =>
    match applyAt (fun turnout => turnout.toggle enabled) turnouts position with
    | some (changed, events) => some (changed, events, true)
    | none => none
  | none => some (turnouts, [], false)

/-- Method `TurnoutManager::toggleByAddress`. -/
def toggleByAddress (enabled : Bool) (turnouts : List Turnout) (address : Nat) :
    Option (List Turnout × List Event × Bool) :=
  match getTurnoutByAddress turnouts address with
  | some position =>
    match applyAt (fun turnout => turnout.toggle enabled) turnouts position with
    | some (changed, events) => some (changed, events, true)
    | none => none
  | none => some (turnouts, [], false)

/-- Method `TurnoutManager::showStatus`. -/
def showStatus (turnouts : List Turnout) : List Event :=
  turnouts.map Turnout.showStatus

/-- Method `TurnoutCommandAdapter::process`: the list and the effects
afterwards. The third argument of `createOrUpdate` is an `int8_t`; its fourth
takes the declared default `LEFT`. -/
def TurnoutCommandAdapter.process (enabled : Bool) (turnouts : List Turnout)
    (arguments : List String) : Option (List Turnout × List Event) :=
  match arguments with
  | [] => some (turnouts, showStatus turnouts)
  | [a0] =>
    let turnoutID := toUInt16 (toInt a0)
    match removeByID turnouts turnoutID with
    | (changed, true) => some (changed, [Event.send COMMAND_SUCCESSFUL_RESPONSE])
    | (changed, false) => some (changed, [Event.send COMMAND_FAILED_RESPONSE])
  | [a0, a1] =>
    let turnoutID := toUInt16 (toInt a0)
    match setByID enabled turnouts turnoutID (decide (toInt a1 = 1)) with
    | some (changed, events, true) => some (changed, events)
    | some (changed, events, false) =>
      some (changed, events ++ [Event.send COMMAND_FAILED_RESPONSE])
    | none => none
  | [a0, a1, a2] =>
    let turnoutID := toUInt16 (toInt a0)
    let created :=
      createOrUpdate turnouts turnoutID (toUInt16 (toInt a1)) (toInt8 (toInt a2))
        TurnoutType.LEFT
    some (created.1, [Event.send COMMAND_SUCCESSFUL_RESPONSE])
  | _ => some (turnouts, [Event.send COMMAND_FAILED_RESPONSE])

/-! ## Locomotive roster (`src/src/ESP32TrainDatabase.cpp`)

The OpenMRN library supplies the enumerations `DccMode`, `Symbols` and
`dcc::TrainAddressType` and the functions `dcc_mode_to_address_type` and
`TractionDefs::train_node_id_from_legacy`. Enumeration values are natural
numbers (their underlying values); what the code takes from the library is
gathered in one parameter. -/

/-- Library enumeration `dcc::TrainAddressType`: the three enumerators that
the code names, and every other one by its value. -/
inductive TrainAddressType where
  | DCC_SHORT_ADDRESS
  | DCC_LONG_ADDRESS
  | MM
  | other (value : Nat)
  deriving DecidableEq, Repr

/-- The library constants and functions that the code refers to. -/
structure OpenMRN where
  DCCMODE_OLCBUSER : Nat
  DCC_SS_MASK : Nat
  FN_NONEXISTANT : Nat
  dcc_mode_to_address_type : Nat → Nat → TrainAddressType
  train_node_id_from_legacy : TrainAddressType → Nat → Nat

/-- The fields of `Esp32PersistentTrainData` that `to_json` and `from_json`
name; `address` is a `uint16_t`, `functions` a vector of `Symbols` and `mode`
a `DccMode`. -/
structure Esp32PersistentTrainData where
  address : Nat
  name : String
  automatic_idle : Bool
  show_on_limited_throttles : Bool
  functions : List Nat
  mode : Nat
  deriving DecidableEq, Repr

/-- Modelled from the spec: the constructor
`Esp32PersistentTrainData(address, mode)` is declared in the class header,
which is not among the translated files; it makes a record "from (address,
mode) with default remaining fields". The default fields are those of the
parameter `defaults`. -/
def Esp32PersistentTrainData.ofAddressMode (defaults : Esp32PersistentTrainData)
    (address mode : Nat) : Esp32PersistentTrainData :=
  { defaults with address := address, mode := mode }

/-- The data members of `Esp32TrainDbEntry`. -/
structure Esp32TrainDbEntry where
  props_ : Esp32PersistentTrainData
  maxFn_ : Nat
  deriving DecidableEq, Repr

/-- Constructor `Esp32TrainDbEntry::Esp32TrainDbEntry(data)`:
`props_(data), maxFn_(data.functions.size())`. -/
def Esp32TrainDbEntry.new (data : Esp32PersistentTrainData) : Esp32TrainDbEntry :=
  { props_ := data, maxFn_ := data.functions.length }

/-- Modelled from the spec: the accessor `get_legacy_address()` is defined in
the class header, which is not among the translated files; it is the record's
legacy/protocol `address`. -/
def Esp32TrainDbEntry.get_legacy_address (e : Esp32TrainDbEntry) : Nat := e.props_.address

/-- Modelled from the spec: the accessor `get_legacy_drive_mode()` is defined in
the class header, which is not among the translated files; it is the record's
`mode`. -/
def Esp32TrainDbEntry.get_legacy_drive_mode (e : Esp32TrainDbEntry) : Nat := e.props_.mode

/-- Method `Esp32TrainDbEntry::identifier`. `StringPrintf` puts the text of `%s`
and the decimal digits of `%d` in their places. -/
def Esp32TrainDbEntry.identifier (lib : OpenMRN) (e : Esp32TrainDbEntry) : String :=
  let addrType := lib.dcc_mode_to_address_type e.props_.mode e.props_.address
  if addrType = TrainAddressType.DCC_SHORT_ADDRESS
      ∨ addrType = TrainAddressType.DCC_LONG_ADDRESS then
    let qualifier : String :=
      if addrType = TrainAddressType.DCC_SHORT_ADDRESS then "short_address"
      else "long_address"
    if e.props_.mode &&& lib.DCC_SS_MASK = 1 then
      "dcc_14/" ++ qualifier ++ "/" ++ decimal e.props_.address
    else if e.props_.mode &&& lib.DCC_SS_MASK = 2 then
      "dcc_28/" ++ qualifier ++ "/" ++ decimal e.props_.address
    else
      "dcc_128/" ++ qualifier ++ "/" ++ decimal e.props_.address
  else if addrType = TrainAddressType.MM then
    "marklin/" ++ decimal e.props_.address
  else
    "unknown/" ++ decimal e.props_.address

/-- Method `Esp32TrainDbEntry::get_traction_node`; a `NodeID` is a 64-bit
unsigned integer. -/
def Esp32TrainDbEntry.get_traction_node (lib : OpenMRN) (e : Esp32TrainDbEntry) : Nat :=
  if e.props_.mode = lib.DCCMODE_OLCBUSER then
    0x050101010000 ||| e.props_.address
  else
    lib.train_node_id_from_legacy
      (lib.dcc_mode_to_address_type e.props_.mode e.props_.address) e.props_.address

/-- Method `Esp32TrainDbEntry::get_function_label`. The result is `none` when
`props_.functions[fn_id]` reads beyond the end of the vector (undefined in
C++). -/
def Esp32TrainDbEntry.get_function_label (lib : OpenMRN) (e : Esp32TrainDbEntry)
    (fn_id : Nat) : Option Nat :=
  if fn_id > e.maxFn_ then some lib.FN_NONEXISTANT
  else e.props_.functions[fn_id]?

/-- The data members of `Esp32TrainDatabase` that the translated code reads or
writes. `knownTrains_` is listed in its iteration order (`begin()` to
`end()`). -/
structure Esp32TrainDatabase where
  knownTrains_ : List Esp32TrainDbEntry
  dirty_ : Bool
  legacyEntriesFound_ : Bool
  deriving DecidableEq, Repr

/-- Container call `knownTrains_.emplace(new Esp32TrainDbEntry(...))`. The
container is declared in the class header, which is not among the translated
files; `emplace` takes the element alone, so it is a set of shared pointers
(the spec: "set of LocomotiveRecord"). A pointer fresh from `new` differs from
every stored one, so the element is always inserted; where it stands in the
iteration order is decided by the pointer value, here the parameter `slot`
(a slot beyond the end is the end). -/
def emplaceAt (entry : Esp32TrainDbEntry) : Nat → List Esp32TrainDbEntry →
    List Esp32TrainDbEntry
  | 0, known => entry :: known
  | _ + 1, [] => [entry]
  | slot + 1, first :: rest => first :: emplaceAt entry slot rest

/-- Macro `FIND_TRAIN_BY_ADDRESS(address)` with `IS_VALID_TRAIN_ENTRY`:
`std::find_if` from `begin()` to `end()` gives the first entry for which
`get_legacy_address() == address`, or `end()`, here `none`. -/
def FIND_TRAIN_BY_ADDRESS (knownTrains_ : List Esp32TrainDbEntry) (address : Nat) :
    Option Esp32TrainDbEntry :=
  knownTrains_.find? (fun train => decide (train.get_legacy_address = address))

/-- Macro `FIND_TRAIN_BY_NODE_ID(node_id)` with `IS_VALID_TRAIN_ENTRY`. -/
def FIND_TRAIN_BY_NODE_ID (lib : OpenMRN) (knownTrains_ : List Esp32TrainDbEntry)
    (node_id : Nat) : Option Esp32TrainDbEntry :=
  knownTrains_.find? (fun train => decide (train.get_traction_node lib = node_id))

/-- Method `Esp32TrainDatabase::get_entry`; `none` is `nullptr`. -/
def Esp32TrainDatabase.get_entry (db : Esp32TrainDatabase) (train_id : Nat) :
    Option Esp32TrainDbEntry :=
  FIND_TRAIN_BY_ADDRESS db.knownTrains_ train_id

/-- Method `Esp32TrainDatabase::find_entry`; `hint` is not used. -/
def Esp32TrainDatabase.find_entry (lib : OpenMRN) (db : Esp32TrainDatabase)
    (node_id : Nat) (_hint : Nat) : Option Esp32TrainDbEntry :=
  FIND_TRAIN_BY_NODE_ID lib db.knownTrains_ node_id

/-- Method `Esp32TrainDatabase::add_dynamic_entry`. `temp_address` and
`temp_mode` are what `temp_entry->get_legacy_address()` (an `int`) and
`temp_entry->get_legacy_drive_mode()` return; the address is stored into a
`uint16_t`. `defaults` are the default fields of a new record and `slot` is
the place the container gives a new element. -/
def Esp32TrainDatabase.add_dynamic_entry (defaults : Esp32PersistentTrainData)
    (slot : Nat) (db : Esp32TrainDatabase) (temp_address : Int) (temp_mode : Nat) :
    Esp32TrainDatabase × Nat :=
  let address := toUInt16 temp_address
  let mode := temp_mode
  match FIND_TRAIN_BY_ADDRESS db.knownTrains_ address with
  | some entry => (db, entry.get_legacy_address)
  | none =>
    ({ db with
        knownTrains_ :=
          emplaceAt
            (Esp32TrainDbEntry.new (Esp32PersistentTrainData.ofAddressMode defaults address mode))
            slot db.knownTrains_ },
      address)

/-- An entry of the legacy roster document: a number under the address key, a
text under the description key, and texts under the two flag keys. -/
structure LegacyRosterEntry where
  address : Int
  description : String
  idleOnStartup : String
  defaultOnThrottle : String
  deriving DecidableEq, Repr

/-- Modelled from the spec: the constant `JSON_VALUE_TRUE` is declared outside
the translated files; the legacy flags are the strings "true"/"false". -/
def JSON_VALUE_TRUE : String := "true"

/-- The body of the loop over the legacy roster: the record built from one
entry. `data` is default-constructed (the parameter `blank`), then `address`,
`name` and the two flags are assigned. -/
def legacyData (blank : Esp32PersistentTrainData) (entry : LegacyRosterEntry) :
    Esp32PersistentTrainData :=
  { blank with
    address := toUInt16 entry.address
    name := entry.description
    automatic_idle := decide (entry.idleOnStartup = JSON_VALUE_TRUE)
    show_on_limited_throttles := decide (entry.defaultOnThrottle = JSON_VALUE_TRUE) }

/-- A `for` loop that emplaces one entry per record. `place n` is the slot the
container gives the element emplaced when it holds `n` elements. -/
def emplaceAll (place : Nat → Nat) :
    List Esp32PersistentTrainData → List Esp32TrainDbEntry → List Esp32TrainDbEntry
  | [], known => known
  | data :: rest, known =>
    emplaceAll place rest (emplaceAt (Esp32TrainDbEntry.new data) (place known.length) known)

/-- Constructor `Esp32TrainDatabase::Esp32TrainDatabase`, the roster part (the
two `create_config_descriptor_xml` calls before it act on files only).
`stored_trains` is the parsed persisted document, `none` when
`configStore->exists(TRAIN_DB_JSON_FILE)` is false; `roster` is the parsed
legacy document, `none` when it does not exist. `legacyEntriesFound` is the
value the member has before the constructor body runs (it is not in the
initialiser list). -/
def Esp32TrainDatabase.new (place : Nat → Nat) (blank : Esp32PersistentTrainData)
    (legacyEntriesFound : Bool) (stored_trains : Option (List Esp32PersistentTrainData))
    (roster : Option (List LegacyRosterEntry)) : Esp32TrainDatabase :=
  let db0 : Esp32TrainDatabase :=
    { knownTrains_ := [], dirty_ := false, legacyEntriesFound_ := legacyEntriesFound }
  let db1 : Esp32TrainDatabase :=
    match stored_trains with
    | some entries => { db0 with knownTrains_ := emplaceAll place entries db0.knownTrains_ }
    | none => db0
  match roster with
  | some entries =>
    { knownTrains_ := emplaceAll place (entries.map (legacyData blank)) db1.knownTrains_
      dirty_ := true
      legacyEntriesFound_ := true }
  | none => db1

/-- A sequence of `add_dynamic_entry` calls, one per item of `calls`: the slot
the container would give a new element, and the candidate's address and
mode. -/
def add_dynamic_entries (defaults : Esp32PersistentTrainData) :
    List (Nat × Int × Nat) → Esp32TrainDatabase → Esp32TrainDatabase
  | [], db => db
  | (slot, address, mode) :: rest, db =>
    add_dynamic_entries defaults rest
      (Esp32TrainDatabase.add_dynamic_entry defaults slot db address mode).1

/-! ## `TurnoutExCommandAdapter` -/

/-- Method `TurnoutExCommandAdapter::process`: the list and the effects
afterwards; `none` when the code reads `arguments[k]` beyond the end of the
vector (undefined in C++). `turnoutID` is an `int32_t`; the argument of
`getTurnoutByID` and the first two arguments of `createOrUpdate` are stored
into `uint16_t` parameters. -/
def TurnoutExCommandAdapter.process (enabled : Bool) (turnouts : List Turnout)
    (arguments : List String) : Option (List Turnout × List Event) :=
  match arguments with
  | [] => some (turnouts, [Event.send COMMAND_FAILED_RESPONSE])
  | a0 :: rest =>
    let turnoutID : Int := toInt a0
    if turnoutID > 0 then
      match getTurnoutByID turnouts (toUInt16 (toInt a0)), rest with
      | some position, [] => applyAt (fun turnout => turnout.toggle enabled) turnouts position
      | some position, a1 :: _ =>
        some (modifyAt (fun turnout => turnout.setType (toInt a1)) turnouts position, [])
      | none, _ => some (turnouts, [Event.send COMMAND_FAILED_RESPONSE])
    else
      match rest with
      | a1 :: a2 :: _ =>
        match getTurnoutByAddress turnouts (toUInt16 (toInt a1)) with
        | some position =>
          some (modifyAt (fun turnout => turnout.setType (toInt a2)) turnouts position, [])
        | none =>
          some ((createOrUpdate turnouts
                  (toUInt16 ((getTurnoutCount turnouts : Int) + 1))
                  (toUInt16 (toInt a1)) (-1) (toInt a2)).1, [])
      | _ => none

/-! ## Configuration descriptor files -/

/-- Function `create_config_descriptor_xml`. `cdi_string` is the text that
`render_cdi` produces for the configuration; `files` gives the content of every
file that can be opened (`none`: `fopen` fails). The result is the files
afterwards and whether `write_string_to_file` was called. -/
def create_config_descriptor_xml (cdi_string filename : String)
    (files : String → Option String) : (String → Option String) × Bool :=
  let need_write : Bool :=
    match files filename with
    | none => true
    | some current_str => decide (current_str ≠ cdi_string)
  if need_write then
    (fun name => if name = filename then some cdi_string else files name, true)
  else (files, false)

/-! ## Roster export as JSON text -/

/-- A JSON value of the nlohmann library; the members of an object are kept
in the order of their keys, as the library's map does. -/
inductive Json where
  | null
  | bool (b : Bool)
  | number (n : Nat)
  | string (s : String)
  | array (items : List Json)
  | object (members : List (String × Json))

/-- The quotation mark. -/
def quoteChar : Char := Char.ofNat 34

/-- The backslash. -/
def backslashChar : Char := Char.ofNat 92

/-- One character of a string as `dump()` writes it: the quotation mark, the
backslash and the control characters are escaped, every other character is
written as it is. -/
def escapeChar (c : Char) : List Char :=
  if c = quoteChar then [backslashChar, quoteChar]
  else if c = backslashChar then [backslashChar, backslashChar]
  else if c.toNat = 8 then [backslashChar, 'b']
  else if c.toNat = 12 then [backslashChar, 'f']
  else if c.toNat = 10 then [backslashChar, 'n']
  else if c.toNat = 13 then [backslashChar, 'r']
  else if c.toNat = 9 then [backslashChar, 't']
  else if c.toNat < 32 then
    [backslashChar, 'u', '0', '0', Nat.digitChar (c.toNat / 16), Nat.digitChar (c.toNat % 16)]
  else [c]

/-- A string between quotation marks, escaped. -/
def dumpString (s : String) : String :=
  String.mk (quoteChar :: (s.data.flatMap escapeChar ++ [quoteChar]))

/-- The separator written before the remaining elements. -/
def comma (nonEmpty : Bool) : String := if nonEmpty then "," else ""

mutual
/-- Library method `dump()` without indentation. -/
def Json.dump : Json → String
  | Json.null => "null"
  | Json.bool b => if b then "true" else "false"
  | Json.number n => decimal n
  | Json.string s => dumpString s
  | Json.array items => "[" ++ dumpItems items ++ "]"
  | Json.object members => "\x7b" ++ dumpMembers members ++ "\x7d"
/-- The elements of an array, separated by commas. -/
def dumpItems : List Json → String
  | [] => ""
  | item :: rest => item.dump ++ comma (!rest.isEmpty) ++ dumpItems rest
/-- The members of an object, separated by commas. -/
def dumpMembers : List (String × Json) → String
  | [] => ""
  | (key, value) :: rest =>
    dumpString key ++ ":" ++ value.dump ++ comma (!rest.isEmpty) ++ dumpMembers rest
end

/-- The library's `emplace` into the map of an object: the member is put at its
place in key order, and a key already present keeps its value. -/
def insertMember (member : String × Json) : List (String × Json) → List (String × Json)
  | [] => [member]
  | first :: rest =>
    if member.1 < first.1 then member :: first :: rest
    else if member.1 = first.1 then first :: rest
    else first :: insertMember member rest

/-- The object that the library builds from an initializer list of key/value
pairs. -/
def objectOf (pairs : List (String × Json)) : Json :=
  Json.object (pairs.foldl (fun members member => insertMember member members) [])

/-- The constants and serialisation tables of the JSON form of a record that
are declared outside the translated file or keyed by library enumerators: the
six key constants used by `to_json`, and the texts that the two
`NLOHMANN_JSON_SERIALIZE_ENUM` tables give for the value of a `DccMode` and of
a `Symbols` enumerator. -/
structure TrainJsonNames where
  JSON_NAME_NODE : String
  JSON_ADDRESS_NODE : String
  JSON_IDLE_ON_STARTUP_NODE : String
  JSON_DEFAULT_ON_THROTTLE_NODE : String
  JSON_FUNCTIONS_NODE : String
  JSON_MODE_NODE : String
  dccModeText : Nat → String
  symbolsText : Nat → String

/-- Function `to_json(json&, const Esp32PersistentTrainData&)`. -/
def to_json (names : TrainJsonNames) (t : Esp32PersistentTrainData) : Json :=
  objectOf
    [(names.JSON_NAME_NODE, Json.string t.name),
     (names.JSON_ADDRESS_NODE, Json.number t.address),
     (names.JSON_IDLE_ON_STARTUP_NODE, Json.bool t.automatic_idle),
     (names.JSON_DEFAULT_ON_THROTTLE_NODE, Json.bool t.show_on_limited_throttles),
     (names.JSON_FUNCTIONS_NODE,
        Json.array (t.functions.map (fun f => Json.string (names.symbolsText f)))),
     (names.JSON_MODE_NODE, Json.string (names.dccModeText t.mode))]

/-- Modelled from the spec: the accessor `get_data()` is defined in the class
header, which is not among the translated files; the export functions
"serialize" an entry, that is its persistent record `props_`. -/
def Esp32TrainDbEntry.get_data (e : Esp32TrainDbEntry) : Esp32PersistentTrainData := e.props_

/-- Method `Esp32TrainDatabase::get_train_list_as_json`. -/
def Esp32TrainDatabase.get_train_list_as_json (names : TrainJsonNames)
    (db : Esp32TrainDatabase) : String :=
  if db.knownTrains_.isEmpty then "[]"
  else (Json.array (db.knownTrains_.map (fun entry => to_json names entry.get_data))).dump

/-- Method `Esp32TrainDatabase::get_train_as_json`. -/
def Esp32TrainDatabase.get_train_as_json (names : TrainJsonNames)
    (db : Esp32TrainDatabase) (address : Nat) : String :=
  match FIND_TRAIN_BY_ADDRESS db.knownTrains_ address with
  | some entry => (to_json names entry.get_data).dump
  | none => "\x7b\x7d"

end ESP32CS

namespace ESP32CS

/-! ## Accessory packet: sum form against OR form -/

theorem byte0_add_eq_or : ∀ x : Fin 64, 0x80 + x.val = 0x80 ||| x.val := by decide

theorem byte1_add_eq_or : ∀ (y : Fin 8) (z : Fin 4) (c : Fin 2),
    ((y.val <<< 4) + (z.val <<< 1) + c.val) ^^^ 0xF8
      = ((y.val <<< 4) ||| (z.val <<< 1) ||| c.val) ^^^ 0xF8 := by decide

theorem byte1_lt : ∀ (y : Fin 8) (z : Fin 4) (c : Fin 2),
    ((y.val <<< 4) + (z.val <<< 1) + c.val) ^^^ 0xF8 < 256 := by decide

theorem toNat_lt_two (b : Bool) : b.toNat < 2 := by cases b <;> decide

/-- C1. The two bytes that `AccessoryCommand::process` builds with `+` are the
bytes of the specification's bitwise-OR definition, and both computed values
are below 256, so narrowing them to `uint8_t` changes nothing. This holds for
all natural numbers, in particular for every 16-bit `boardAddress` and 8-bit
`boardIndex`. -/
theorem accessoryPacket_eq_encodeAccessoryPacket (boardAddress boardIndex : Nat)
    (activate : Bool) :
    accessoryPacket boardAddress boardIndex activate
        = encodeAccessoryPacket boardAddress boardIndex activate
      ∧ accessoryByte0 boardAddress = 0x80 ||| (boardAddress % 64)
      ∧ accessoryByte1 boardAddress boardIndex activate
          = ((((boardAddress / 64) % 8) <<< 4) ||| ((boardIndex % 4) <<< 1)
              ||| activate.toNat) ^^^ 0xF8
      ∧ accessoryByte0 boardAddress < 256
      ∧ accessoryByte1 boardAddress boardIndex activate < 256 := by
  have h0 := byte0_add_eq_or ⟨boardAddress % 64, Nat.mod_lt _ (by decide)⟩
  have h1 := byte1_add_eq_or ⟨(boardAddress / 64) % 8, Nat.mod_lt _ (by decide)⟩
    ⟨boardIndex % 4, Nat.mod_lt _ (by decide)⟩ ⟨activate.toNat, toNat_lt_two activate⟩
  have h2 := byte1_lt ⟨(boardAddress / 64) % 8, Nat.mod_lt _ (by decide)⟩
    ⟨boardIndex % 4, Nat.mod_lt _ (by decide)⟩ ⟨activate.toNat, toNat_lt_two activate⟩
  have hb : boardAddress % 64 < 64 := Nat.mod_lt _ (by decide)
  simp only [] at h0 h1 h2
  have e0 : accessoryByte0 boardAddress = 0x80 ||| (boardAddress % 64) := h0
  have e1 : accessoryByte1 boardAddress boardIndex activate
      = ((((boardAddress / 64) % 8) <<< 4) ||| ((boardIndex % 4) <<< 1)
              ||| activate.toNat) ^^^ 0xF8 := h1
  have l0 : accessoryByte0 boardAddress < 256 := by unfold accessoryByte0; omega
  have l1 : accessoryByte1 boardAddress boardIndex activate < 256 := h2
  refine ⟨?_, e0, e1, l0, l1⟩
  unfold accessoryPacket encodeAccessoryPacket
  rw [Nat.mod_eq_of_lt l0, Nat.mod_eq_of_lt l1, e0, e1]

/-! ## Board address and index -/

theorem calculate_eq (address : Nat) (h : address < 65536) :
    calculateTurnoutBoardAddressAndIndex address = ((address + 3) / 4, (address + 3) % 4) := by
  unfold calculateTurnoutBoardAddressAndIndex boardIndexExpr boardAddressExpr toUInt16 toUInt8
  simp only [Prod.mk.injEq]
  constructor <;> omega

/-- C2. For every address `a` in [1,511] the function yields
`boardAddress = (a+3)/4` (integer division) and
`boardIndex = a - boardAddress*4 + 3` (computed over the integers); the pair is
a function of the address alone, and address 10 yields board 3, index 1. -/
theorem calculate_spec_1_511 (a : Nat) (h1 : 1 ≤ a) (h2 : a ≤ 511) :
    (calculateTurnoutBoardAddressAndIndex a).1 = (a + 3) / 4
      ∧ ((calculateTurnoutBoardAddressAndIndex a).2 : Int)
          = (a : Int) - ((calculateTurnoutBoardAddressAndIndex a).1 : Int) * 4 + 3
      ∧ (∀ a2 : Nat, a2 = a →
          calculateTurnoutBoardAddressAndIndex a2 = calculateTurnoutBoardAddressAndIndex a)
      ∧ calculateTurnoutBoardAddressAndIndex 10 = (3, 1) := by
  have h := calculate_eq a (by omega)
  refine ⟨?_, ?_, ?_, by decide⟩
  · rw [h]
  · rw [h]
    simp only []
    omega
  · intro a2 e
    rw [e]

theorem calculate_spec_1_511_witness :
    (calculateTurnoutBoardAddressAndIndex 10).1 = (10 + 3) / 4
      ∧ ((calculateTurnoutBoardAddressAndIndex 10).2 : Int)
          = (10 : Int) - ((calculateTurnoutBoardAddressAndIndex 10).1 : Int) * 4 + 3 :=
  ⟨(calculate_spec_1_511 10 (by decide) (by decide)).1,
   (calculate_spec_1_511 10 (by decide) (by decide)).2.1⟩

/-- C3. For every 16-bit address `a` the intermediate `a - boardAddress*4 + 3`
is not negative and is the value stored in the `uint8_t`, the board index is
below 4, and `a + 3 = 4*boardAddress + boardIndex`. Hence the mapping is
injective on 16-bit addresses, an address maps to board `b >= 1` with index `k`
exactly when `k < 4` and it is the address `4b - 3 + k`, and for every board
whose four addresses are 16-bit values (`4b <= 65535`) the addresses
`4b-3, 4b-2, 4b-1, 4b` map to `b` with indexes 0, 1, 2, 3. -/
theorem calculate_partitions_boards_of_four (a : Nat) (ha : a < 65536) :
    0 ≤ boardIndexExpr (calculateTurnoutBoardAddressAndIndex a).1 a
      ∧ ((calculateTurnoutBoardAddressAndIndex a).2 : Int)
          = boardIndexExpr (calculateTurnoutBoardAddressAndIndex a).1 a
      ∧ (calculateTurnoutBoardAddressAndIndex a).2 < 4
      ∧ a + 3 = 4 * (calculateTurnoutBoardAddressAndIndex a).1
          + (calculateTurnoutBoardAddressAndIndex a).2
      ∧ (∀ a2 : Nat, a2 < 65536 →
          calculateTurnoutBoardAddressAndIndex a2 = calculateTurnoutBoardAddressAndIndex a →
          a2 = a)
      ∧ (∀ b k : Nat, 1 ≤ b →
          (calculateTurnoutBoardAddressAndIndex a = (b, k) ↔ k < 4 ∧ a = 4 * b - 3 + k))
      ∧ (∀ b : Nat, 1 ≤ b → 4 * b ≤ 65535 →
          calculateTurnoutBoardAddressAndIndex (4 * b - 3) = (b, 0)
          ∧ calculateTurnoutBoardAddressAndIndex (4 * b - 2) = (b, 1)
          ∧ calculateTurnoutBoardAddressAndIndex (4 * b - 1) = (b, 2)
          ∧ calculateTurnoutBoardAddressAndIndex (4 * b) = (b, 3)) := by
  have h := calculate_eq a ha
  refine ⟨?_, ?_, ?_, ?_, ?_, ?_, ?_⟩
  · rw [h]; unfold boardIndexExpr; simp only []; omega
  · rw [h]; unfold boardIndexExpr; simp only []; omega
  · rw [h]; simp only []; omega
  · rw [h]; simp only []; omega
  · intro a2 h2 e
    rw [h, calculate_eq a2 h2] at e
    simp only [Prod.mk.injEq] at e
    omega
  · intro b k hb
    rw [h]
    simp only [Prod.mk.injEq]
    omega
  · intro b hb1 hb2
    rw [calculate_eq _ (by omega), calculate_eq _ (by omega), calculate_eq _ (by omega),
      calculate_eq _ (by omega)]
    simp only [Prod.mk.injEq]
    omega

theorem calculate_partitions_boards_of_four_witness :
    (calculateTurnoutBoardAddressAndIndex 10).2 < 4
      ∧ 10 + 3 = 4 * (calculateTurnoutBoardAddressAndIndex 10).1
          + (calculateTurnoutBoardAddressAndIndex 10).2
      ∧ calculateTurnoutBoardAddressAndIndex (4 * 3 - 2) = (3, 1) :=
  ⟨(calculate_partitions_boards_of_four 10 (by decide)).2.2.1,
   (calculate_partitions_boards_of_four 10 (by decide)).2.2.2.1,
   ((calculate_partitions_boards_of_four 10 (by decide)).2.2.2.2.2.2 3 (by decide)
      (by decide)).2.1⟩

/-! ## Scenario: turnout 5 at address 10 -/

/-- C4. A turnout created with id 5, address 10 and index -1, initially closed,
has board address 3 and board index 1. Toggling it makes it thrown, passes the
accessory command the arguments 3, 1, 1, loads (the operations signal being
enabled) exactly the packet bytes 0x83, 0xFB, and reports the line `<H 5 1>`. -/
theorem scenario_turnout_5_address_10 :
    (Turnout.new 5 10 (-1) false TurnoutType.LEFT)._boardAddress = 3
      ∧ (Turnout.new 5 10 (-1) false TurnoutType.LEFT)._index = 1
      ∧ (Turnout.new 5 10 (-1) false TurnoutType.LEFT)._thrown = false
      ∧ Turnout.toggle true (Turnout.new 5 10 (-1) false TurnoutType.LEFT)
          = some ({ _turnoutID := 5, _address := 10, _index := 1, _boardAddress := 3,
                    _thrown := true, _type := TurnoutType.LEFT },
                  [Event.accessory ["3", "1", "1"],
                   Event.loadPacket [0x83, 0xFB] 1,
                   Event.print "<H 5 1>"]) := by
  decide

/-! ## Turnouts defined with an explicit sub-address -/

/-- C5. Evaluation at the failing input: after `<T 1 5 2>` on an empty store the
command `<T 1 1>` invokes the accessory handler with the arguments 0, 2, 1 and
loads the packet 0x80, 0xFD of board 0, not the arguments 5, 2, 1 of the
documented `<a ADDRESS SUBADDRESS ACTIVATE>` (whose packet is 0x85, 0xFD). -/
theorem turnout_command_throw_uses_board_zero :
    TurnoutCommandAdapter.process true [] ["1", "5", "2"]
        = some ([{ _turnoutID := 1, _address := 5, _index := 2, _boardAddress := 0,
                   _thrown := false, _type := TurnoutType.LEFT }],
                [Event.send "<O>"])
      ∧ TurnoutCommandAdapter.process true
          [{ _turnoutID := 1, _address := 5, _index := 2, _boardAddress := 0,
             _thrown := false, _type := TurnoutType.LEFT }] ["1", "1"]
        = some ([{ _turnoutID := 1, _address := 5, _index := 2, _boardAddress := 0,
                   _thrown := true, _type := TurnoutType.LEFT }],
                [Event.accessory ["0", "2", "1"],
                 Event.loadPacket [0x80, 0xFD] 1,
                 Event.print "<H 1 1>"])
      ∧ AccessoryCommand.process true ["5", "2", "1"]
        = some [Event.loadPacket [0x85, 0xFD] 1] := by
  decide

/-- C6. Evaluation at the failing input: turnout 1 is created at address 10
with index -1 (board 3, index 1) and then updated to address 10 with the
explicit index 2, which leaves board 3 in place. Its record has
`subAddress = -1`, and the turnout built from that record has board index 1,
not 2. -/
theorem toJson_fromJson_after_update_loses_index :
    (Turnout.new 1 10 (-1) false TurnoutType.LEFT).update 10 2 TurnoutType.LEFT
        = { _turnoutID := 1, _address := 10, _index := 2, _boardAddress := 3,
            _thrown := false, _type := TurnoutType.LEFT }
      ∧ (Turnout.toJson "Thrown" "Closed"
          ((Turnout.new 1 10 (-1) false TurnoutType.LEFT).update 10 2 TurnoutType.LEFT)
          false).subAddress = -1
      ∧ Turnout.fromJson (Turnout.toJson "Thrown" "Closed"
          ((Turnout.new 1 10 (-1) false TurnoutType.LEFT).update 10 2 TurnoutType.LEFT)
          false)
        = { _turnoutID := 1, _address := 10, _index := 1, _boardAddress := 3,
            _thrown := false, _type := TurnoutType.LEFT } := by
  decide

/-- C7. Evaluation at the failing input: updating a turnout whose board address
was derived (address 10, board 3) with the explicit index 2 keeps board
address 3, while a turnout freshly constructed with the same id, address 10,
index 2, state and type has board address 0. -/
theorem update_keeps_stale_boardAddress :
    ((Turnout.new 1 10 (-1) false TurnoutType.LEFT).update 10 2
        TurnoutType.LEFT)._boardAddress = 3
      ∧ (Turnout.new 1 10 2 false TurnoutType.LEFT)._boardAddress = 0
      ∧ (Turnout.new 1 10 (-1) false TurnoutType.LEFT).update 10 2 TurnoutType.LEFT
          ≠ Turnout.new 1 10 2 false TurnoutType.LEFT := by
  decide

/-! ## The scan of the turnout list -/

theorem scanTurnouts_append (f : Turnout → Bool) (l1 l2 : List Turnout) (i : Nat)
    (r : Option Nat) :
    scanTurnouts f (l1 ++ l2) i r
      = scanTurnouts f l2 (i + l1.length) (scanTurnouts f l1 i r) := by
  induction l1 generalizing i r with
  | nil => simp [scanTurnouts]
  | cons a l ih =>
    have e : (a :: l) ++ l2 = a :: (l ++ l2) := rfl
    rw [e]
    simp only [scanTurnouts, List.length_cons]
    rw [ih]
    congr 1
    omega

theorem scanTurnouts_no_match (f : Turnout → Bool) (l : List Turnout) (i : Nat)
    (r : Option Nat) (h : ∀ t ∈ l, f t = false) : scanTurnouts f l i r = r := by
  induction l generalizing i r with
  | nil => rfl
  | cons a l ih =>
    have ha : f a = false := h a (List.mem_cons_self a l)
    simp only [scanTurnouts, ha]
    exact ih (i + 1) r (fun t ht => h t (List.mem_cons_of_mem a ht))

theorem scanTurnouts_last_match (f : Turnout → Bool) (pre post : List Turnout)
    (t : Turnout) (i : Nat) (r : Option Nat) (ht : f t = true)
    (hpost : ∀ u ∈ post, f u = false) :
    scanTurnouts f (pre ++ t :: post) i r = some (i + pre.length) := by
  rw [scanTurnouts_append]
  simp only [scanTurnouts, ht, if_true]
  exact scanTurnouts_no_match f post _ _ hpost

theorem exists_last_match (f : Turnout → Bool) (l : List Turnout)
    (h : ∃ t ∈ l, f t = true) :
    ∃ pre t post, l = pre ++ t :: post ∧ f t = true ∧ ∀ u ∈ post, f u = false := by
  induction l with
  | nil =>
    obtain ⟨t, ht, _⟩ := h
    cases ht
  | cons a l ih =>
    by_cases hl : ∃ t ∈ l, f t = true
    · obtain ⟨pre, t, post, e, ht, hpost⟩ := ih hl
      exact ⟨a :: pre, t, post, by rw [e]; rfl, ht, hpost⟩
    · have hnone : ∀ u ∈ l, f u = false := by
        intro u hu
        cases hfu : f u with
        | false => rfl
        | true => exact absurd ⟨u, hu, hfu⟩ hl
      obtain ⟨t, ht, hft⟩ := h
      rcases List.mem_cons.mp ht with e | hmem
      · subst e
        exact ⟨[], t, l, rfl, hft, hnone⟩
      · exact absurd ⟨t, hmem, hft⟩ hl

theorem scanTurnouts_eq_some (f : Turnout → Bool) (l : List Turnout) (p : Nat)
    (h : scanTurnouts f l 0 none = some p) :
    ∃ pre t post, l = pre ++ t :: post ∧ pre.length = p ∧ f t = true
      ∧ ∀ u ∈ post, f u = false := by
  by_cases hl : ∃ t ∈ l, f t = true
  · obtain ⟨pre, t, post, e, ht, hpost⟩ := exists_last_match f l hl
    refine ⟨pre, t, post, e, ?_, ht, hpost⟩
    rw [e, scanTurnouts_last_match f pre post t 0 none ht hpost] at h
    simpa using h
  · have hnone : ∀ u ∈ l, f u = false := by
      intro u hu
      cases hfu : f u with
      | false => rfl
      | true => exact absurd ⟨u, hu, hfu⟩ hl
    rw [scanTurnouts_no_match f l 0 none hnone] at h
    cases h

theorem scanTurnouts_eq_none (f : Turnout → Bool) (l : List Turnout)
    (h : scanTurnouts f l 0 none = none) : ∀ t ∈ l, f t = false := by
  intro t ht
  cases hft : f t with
  | false => rfl
  | true =>
    obtain ⟨pre, u, post, e, hu, hpost⟩ := exists_last_match f l ⟨t, ht, hft⟩
    rw [e, scanTurnouts_last_match f pre post u 0 none hu hpost] at h
    cases h

theorem modifyAt_append (f : Turnout → Turnout) (pre post : List Turnout) (t : Turnout) :
    modifyAt f (pre ++ t :: post) pre.length = pre ++ f t :: post := by
  induction pre with
  | nil => rfl
  | cons a l ih =>
    have e : (a :: l) ++ t :: post = a :: (l ++ t :: post) := rfl
    rw [e]
    simp only [List.length_cons, modifyAt, ih]
    rfl

theorem eraseIdx_append_cons (pre post : List Turnout) (t : Turnout) :
    (pre ++ t :: post).eraseIdx pre.length = pre ++ post := by
  induction pre with
  | nil => rfl
  | cons a l ih =>
    have e : (a :: l) ++ t :: post = a :: (l ++ t :: post) := rfl
    rw [e]
    simp only [List.length_cons, List.eraseIdx_cons_succ, ih]
    rfl

theorem getElem?_append_cons (pre post : List Turnout) (t : Turnout) :
    (pre ++ t :: post)[pre.length]? = some t := by
  induction pre with
  | nil => simp
  | cons a l ih =>
    have e : (a :: l) ++ t :: post = a :: (l ++ t :: post) := rfl
    rw [e, List.length_cons, List.getElem?_cons_succ]
    exact ih

theorem Turnout.update_id (t : Turnout) (address : Nat) (index : Int) (type : TurnoutType) :
    (t.update address index type)._turnoutID = t._turnoutID := by
  unfold Turnout.update
  split <;> rfl

theorem Turnout.update_address (t : Turnout) (address : Nat) (index : Int)
    (type : TurnoutType) : (t.update address index type)._address = address := by
  unfold Turnout.update
  split <;> rfl

theorem Turnout.update_type (t : Turnout) (address : Nat) (index : Int)
    (type : TurnoutType) : (t.update address index type)._type = type := by
  unfold Turnout.update
  split <;> rfl

theorem Turnout.update_thrown (t : Turnout) (address : Nat) (index : Int)
    (type : TurnoutType) : (t.update address index type)._thrown = t._thrown := by
  unfold Turnout.update
  split <;> rfl

theorem Turnout.new_thrown (id address : Nat) (index : Int) (thrown : Bool)
    (type : TurnoutType) : (Turnout.new id address index thrown type)._thrown = thrown := by
  unfold Turnout.new
  split <;> rfl

theorem Turnout.new_id (id address : Nat) (index : Int) (thrown : Bool)
    (type : TurnoutType) : (Turnout.new id address index thrown type)._turnoutID = id := by
  unfold Turnout.new
  split <;> rfl

theorem Turnout.new_address (id address : Nat) (index : Int) (thrown : Bool)
    (type : TurnoutType) : (Turnout.new id address index thrown type)._address = address := by
  unfold Turnout.new
  split <;> rfl

theorem Turnout.new_type (id address : Nat) (index : Int) (thrown : Bool)
    (type : TurnoutType) : (Turnout.new id address index thrown type)._type = type := by
  unfold Turnout.new
  split <;> rfl

theorem mem_post_of_getElem? (pre post : List Turnout) (t u : Turnout) (q : Nat)
    (hq : pre.length < q) (h : (pre ++ t :: post)[q]? = some u) : u ∈ post := by
  rw [List.getElem?_append_right (Nat.le_of_lt hq)] at h
  obtain ⟨k, hk⟩ : ∃ k, q - pre.length = k + 1 := ⟨q - pre.length - 1, by omega⟩
  rw [hk, List.getElem?_cons_succ] at h
  exact List.getElem?_mem h

theorem scanTurnouts_eq_some_iff (f : Turnout → Bool) (l : List Turnout) (p : Nat) :
    scanTurnouts f l 0 none = some p
      ↔ (∃ t, l[p]? = some t ∧ f t = true)
          ∧ ∀ q t, p < q → l[q]? = some t → f t = false := by
  constructor
  · intro h
    obtain ⟨pre, t, post, e, hp, ht, hpost⟩ := scanTurnouts_eq_some f l p h
    subst hp
    subst e
    refine ⟨⟨t, getElem?_append_cons pre post t, ht⟩, ?_⟩
    intro q u hq hu
    exact hpost u (mem_post_of_getElem? pre post t u q hq hu)
  · rintro ⟨⟨t, ht, hft⟩, hlater⟩
    obtain ⟨pre, u, post, e, hu, hpost⟩ :=
      exists_last_match f l ⟨t, List.getElem?_mem ht, hft⟩
    rw [e, scanTurnouts_last_match f pre post u 0 none hu hpost]
    have hpos : pre.length = p := by
      rcases Nat.lt_trichotomy pre.length p with hlt | heq | hgt
      · have hmem : t ∈ post := mem_post_of_getElem? pre post u t p hlt (e ▸ ht)
        rw [hpost t hmem] at hft
        cases hft
      · exact heq
      · have hat : l[pre.length]? = some u := e ▸ getElem?_append_cons pre post u
        rw [hlater pre.length u hgt hat] at hu
        cases hu
    simp [hpos]

theorem scanTurnouts_eq_none_iff (f : Turnout → Bool) (l : List Turnout) :
    scanTurnouts f l 0 none = none ↔ ∀ t ∈ l, f t = false :=
  ⟨scanTurnouts_eq_none f l, scanTurnouts_no_match f l 0 none⟩

/-! ## `createOrUpdate` -/

/-- C8. For every store, `createOrUpdate` on an id that some turnout already has
leaves the number of turnouts unchanged, returns the turnout that
`getTurnoutByID(id)` returns before and after the call, and that turnout then
has the given address and type. On an id that no turnout has, the number of
turnouts grows by exactly one: the old turnouts are kept and a new one, closed,
with the given id, address and type, is appended and returned. -/
theorem createOrUpdate_existing_or_new (turnouts : List Turnout) (id address : Nat)
    (index : Int) (type : TurnoutType) :
    ((∃ t ∈ turnouts, t._turnoutID = id) →
        (createOrUpdate turnouts id address index type).1.length = turnouts.length
        ∧ getTurnoutByID turnouts id = some (createOrUpdate turnouts id address index type).2
        ∧ getTurnoutByID (createOrUpdate turnouts id address index type).1 id
            = some (createOrUpdate turnouts id address index type).2
        ∧ ∃ t, (createOrUpdate turnouts id address index type).1[
                  (createOrUpdate turnouts id address index type).2]? = some t
            ∧ t._turnoutID = id ∧ t._address = address ∧ t._type = type)
      ∧ ((∀ t ∈ turnouts, t._turnoutID ≠ id) →
        (createOrUpdate turnouts id address index type).1.length = turnouts.length + 1
        ∧ getTurnoutByID (createOrUpdate turnouts id address index type).1 id
            = some (createOrUpdate turnouts id address index type).2
        ∧ ∃ t, (createOrUpdate turnouts id address index type).1 = turnouts ++ [t]
            ∧ (createOrUpdate turnouts id address index type).1[
                  (createOrUpdate turnouts id address index type).2]? = some t
            ∧ t._thrown = false
            ∧ t._turnoutID = id ∧ t._address = address ∧ t._type = type) := by
  constructor
  · rintro ⟨t0, hmem, hid⟩
    obtain ⟨pre, t, post, e, ht, hpost⟩ :=
      exists_last_match (fun u => decide (u._turnoutID = id)) turnouts
        ⟨t0, hmem, by simpa using hid⟩
    have hget : getTurnoutByID turnouts id = some pre.length := by
      unfold getTurnoutByID
      rw [e, scanTurnouts_last_match _ pre post t 0 none ht hpost]
      simp
    have hres : createOrUpdate turnouts id address index type
        = (pre ++ t.update address index type :: post, pre.length) := by
      unfold createOrUpdate
      rw [hget]
      simp only []
      rw [e, modifyAt_append]
    have hid2 : (t.update address index type)._turnoutID = id := by
      rw [Turnout.update_id]
      simpa using ht
    rw [hres]
    refine ⟨?_, hget, ?_, t.update address index type, getElem?_append_cons _ _ _, hid2,
      Turnout.update_address _ _ _ _, Turnout.update_type _ _ _ _⟩
    · rw [e]
      simp
    · unfold getTurnoutByID
      rw [scanTurnouts_last_match _ pre post _ 0 none (by simpa using hid2) hpost]
      simp
  · intro habsent
    have hget : getTurnoutByID turnouts id = none := by
      unfold getTurnoutByID
      exact scanTurnouts_no_match _ turnouts 0 none (fun t ht => by simpa using habsent t ht)
    have hres : createOrUpdate turnouts id address index type
        = (turnouts ++ [Turnout.new id address index false type], turnouts.length) := by
      unfold createOrUpdate
      rw [hget]
    rw [hres]
    refine ⟨by simp, ?_, Turnout.new id address index false type, rfl,
      getElem?_append_cons _ _ _, Turnout.new_thrown _ _ _ _ _, Turnout.new_id _ _ _ _ _,
      Turnout.new_address _ _ _ _ _, Turnout.new_type _ _ _ _ _⟩
    unfold getTurnoutByID
    rw [scanTurnouts_last_match _ turnouts [] _ 0 none
      (by simpa using Turnout.new_id id address index false type)
      (fun u hu => by cases hu)]
    simp

theorem createOrUpdate_existing_or_new_witness :
    ((∃ t ∈ [Turnout.new 5 10 (-1) false TurnoutType.LEFT], t._turnoutID = 5)
      ∧ (createOrUpdate [Turnout.new 5 10 (-1) false TurnoutType.LEFT] 5 20 (-1)
          TurnoutType.RIGHT).1.length
          = [Turnout.new 5 10 (-1) false TurnoutType.LEFT].length)
    ∧ ((∀ t ∈ ([] : List Turnout), t._turnoutID ≠ 5)
      ∧ (createOrUpdate [] 5 10 (-1) TurnoutType.LEFT).1.length
          = ([] : List Turnout).length + 1) :=
  ⟨⟨⟨_, List.mem_singleton.mpr rfl, by decide⟩,
    ((createOrUpdate_existing_or_new [Turnout.new 5 10 (-1) false TurnoutType.LEFT] 5 20 (-1)
      TurnoutType.RIGHT).1 ⟨_, List.mem_singleton.mpr rfl, by decide⟩).1⟩,
   ⟨(fun _ ht => nomatch ht),
    ((createOrUpdate_existing_or_new [] 5 10 (-1) TurnoutType.LEFT).2
      (fun _ ht => nomatch ht)).1⟩⟩

/-! ## Lookups -/

/-- C9. For every store and every address, `getTurnoutByAddress` returns the
turnout at position `p` exactly when that turnout has the address and no
turnout at a greater position has it (the one inserted last, `add` appending at
the tail), and returns null exactly when no turnout has the address; the same
holds for `getTurnoutByID` and the id. A turnout appended to the list is the
one then returned for its address and for its id. -/
theorem lookups_return_last_match (turnouts : List Turnout) (key : Nat) :
    (∀ p, getTurnoutByAddress turnouts key = some p
        ↔ (∃ t, turnouts[p]? = some t ∧ t._address = key)
            ∧ ∀ q t, p < q → turnouts[q]? = some t → t._address ≠ key)
      ∧ (getTurnoutByAddress turnouts key = none ↔ ∀ t ∈ turnouts, t._address ≠ key)
      ∧ (∀ p, getTurnoutByID turnouts key = some p
        ↔ (∃ t, turnouts[p]? = some t ∧ t._turnoutID = key)
            ∧ ∀ q t, p < q → turnouts[q]? = some t → t._turnoutID ≠ key)
      ∧ (getTurnoutByID turnouts key = none ↔ ∀ t ∈ turnouts, t._turnoutID ≠ key)
      ∧ (∀ t : Turnout, t._address = key →
          getTurnoutByAddress (turnouts ++ [t]) key = some turnouts.length)
      ∧ (∀ t : Turnout, t._turnoutID = key →
          getTurnoutByID (turnouts ++ [t]) key = some turnouts.length) := by
  refine ⟨?_, ?_, ?_, ?_, ?_, ?_⟩
  · intro p
    unfold getTurnoutByAddress
    rw [scanTurnouts_eq_some_iff]
    simp
  · unfold getTurnoutByAddress
    rw [scanTurnouts_eq_none_iff]
    simp
  · intro p
    unfold getTurnoutByID
    rw [scanTurnouts_eq_some_iff]
    simp
  · unfold getTurnoutByID
    rw [scanTurnouts_eq_none_iff]
    simp
  · intro t ht
    unfold getTurnoutByAddress
    rw [scanTurnouts_last_match _ turnouts [] t 0 none (by simpa using ht)
      (fun u hu => by cases hu)]
    simp
  · intro t ht
    unfold getTurnoutByID
    rw [scanTurnouts_last_match _ turnouts [] t 0 none (by simpa using ht)
      (fun u hu => by cases hu)]
    simp

theorem lookups_return_last_match_witness :
    getTurnoutByAddress
        ([Turnout.new 1 7 0 false TurnoutType.LEFT]
          ++ [Turnout.new 2 7 0 false TurnoutType.LEFT]) 7
      = some [Turnout.new 1 7 0 false TurnoutType.LEFT].length :=
  (lookups_return_last_match [Turnout.new 1 7 0 false TurnoutType.LEFT] 7).2.2.2.2.1
    (Turnout.new 2 7 0 false TurnoutType.LEFT) (by decide)

/-! ## Removal by address -/

/-- C10, as the claim states it, fails: in a store of two turnouts that share
address 7, `removeByAddress(7)` removes the second one (id 2) and leaves the
first one encountered (id 1) in the store. -/
theorem removeByAddress_first_match_counterexample :
    removeByAddress
        [Turnout.new 1 7 0 false TurnoutType.LEFT, Turnout.new 2 7 0 false TurnoutType.LEFT] 7
      = ([Turnout.new 1 7 0 false TurnoutType.LEFT], true)
    ∧ (removeByAddress
        [Turnout.new 1 7 0 false TurnoutType.LEFT, Turnout.new 2 7 0 false TurnoutType.LEFT]
        7).1
      ≠ [Turnout.new 2 7 0 false TurnoutType.LEFT] := by
  decide

/-- C10, amended. For every store in which at least one turnout has the
address, `removeByAddress(address)` removes only the last turnout with that
address (the matching element at the greatest list position, the one
`getTurnoutByAddress` returns) and leaves every other turnout, among them all
earlier turnouts with that address, in the store in their order. -/
theorem removeByAddress_removes_last_match (turnouts : List Turnout) (address : Nat)
    (h : ∃ t ∈ turnouts, t._address = address) :
    ∃ pre t post, turnouts = pre ++ t :: post
      ∧ t._address = address
      ∧ (∀ u ∈ post, u._address ≠ address)
      ∧ getTurnoutByAddress turnouts address = some pre.length
      ∧ removeByAddress turnouts address = (pre ++ post, true) := by
  obtain ⟨t0, hmem, haddr⟩ := h
  obtain ⟨pre, t, post, e, ht, hpost⟩ :=
    exists_last_match (fun u => decide (u._address = address)) turnouts
      ⟨t0, hmem, by simpa using haddr⟩
  have hget : getTurnoutByAddress turnouts address = some pre.length := by
    unfold getTurnoutByAddress
    rw [e, scanTurnouts_last_match _ pre post t 0 none ht hpost]
    simp
  refine ⟨pre, t, post, e, by simpa using ht, fun u hu => by simpa using hpost u hu, hget, ?_⟩
  unfold removeByAddress
  rw [hget]
  simp only []
  rw [e, eraseIdx_append_cons]

theorem removeByAddress_removes_last_match_witness :
    (∃ t ∈ [Turnout.new 1 7 0 false TurnoutType.LEFT,
            Turnout.new 2 7 0 false TurnoutType.LEFT], t._address = 7)
    ∧ ∃ pre t post,
        [Turnout.new 1 7 0 false TurnoutType.LEFT, Turnout.new 2 7 0 false TurnoutType.LEFT]
          = pre ++ t :: post
      ∧ t._address = 7
      ∧ (∀ u ∈ post, u._address ≠ 7)
      ∧ getTurnoutByAddress
          [Turnout.new 1 7 0 false TurnoutType.LEFT, Turnout.new 2 7 0 false TurnoutType.LEFT]
          7 = some pre.length
      ∧ removeByAddress
          [Turnout.new 1 7 0 false TurnoutType.LEFT, Turnout.new 2 7 0 false TurnoutType.LEFT]
          7 = (pre ++ post, true) :=
  ⟨⟨_, List.mem_cons_self _ _, by decide⟩,
   removeByAddress_removes_last_match _ 7 ⟨_, List.mem_cons_self _ _, by decide⟩⟩

/-! ## Auxiliary facts on `set` and on the record round trip -/

theorem toUInt16_natCast (n : Nat) (h : n < 65536) : toUInt16 (n : Int) = n := by
  unfold toUInt16
  omega

theorem toUInt8_natCast (n : Nat) (h : n < 256) : toUInt8 (n : Int) = n := by
  unfold toUInt8
  omega

theorem Turnout.set_eq_some (enabled : Bool) (t : Turnout) (thrown sendDCCPacket : Bool) :
    ∃ events, Turnout.set enabled t thrown sendDCCPacket
      = some ({ t with _thrown := thrown }, events) := by
  unfold Turnout.set AccessoryCommand.process
  cases sendDCCPacket <;> cases enabled <;> simp

theorem fromJson_toJson_of_consistent (thrownText closedText : String) (t : Turnout)
    (hid : t._turnoutID < 65536) (haddr : t._address < 65536)
    (h : (t._boardAddress = 0 ∧ t._index < 255)
      ∨ (t._boardAddress ≠ 0
          ∧ calculateTurnoutBoardAddressAndIndex t._address = (t._boardAddress, t._index))) :
    Turnout.fromJson (Turnout.toJson thrownText closedText t false) = t := by
  obtain ⟨id, address, index, boardAddress, thrown, type⟩ := t
  simp only at hid haddr h
  rcases h with ⟨hb, hi⟩ | ⟨hb, hc⟩
  · subst hb
    have hne : ((index : Nat) : Int) ≠ -1 := by omega
    simp [Turnout.fromJson, Turnout.toJson, JsonState.asBool, hne,
      toUInt16_natCast id hid, toUInt16_natCast address haddr,
      toUInt8_natCast index (by omega)]
  · simp [Turnout.fromJson, Turnout.toJson, JsonState.asBool, hb,
      toUInt16_natCast id hid, toUInt16_natCast address haddr, hc]

/-! ## Roster: insertion -/

theorem emplaceAt_split (e : Esp32TrainDbEntry) (slot : Nat) (known : List Esp32TrainDbEntry) :
    ∃ pre post, known = pre ++ post ∧ emplaceAt e slot known = pre ++ e :: post := by
  induction known generalizing slot with
  | nil =>
    cases slot with
    | zero => exact ⟨[], [], rfl, rfl⟩
    | succ k => exact ⟨[], [], rfl, rfl⟩
  | cons a l ih =>
    cases slot with
    | zero => exact ⟨[], a :: l, rfl, rfl⟩
    | succ k =>
      obtain ⟨pre, post, h1, h2⟩ := ih k
      refine ⟨a :: pre, post, by rw [h1]; rfl, ?_⟩
      simp only [emplaceAt, h2]
      rfl

theorem emplaceAt_perm (e : Esp32TrainDbEntry) (slot : Nat) (known : List Esp32TrainDbEntry) :
    (emplaceAt e slot known).Perm (e :: known) := by
  obtain ⟨pre, post, h1, h2⟩ := emplaceAt_split e slot known
  rw [h2, h1]
  exact List.perm_middle

theorem emplaceAt_length (e : Esp32TrainDbEntry) (slot : Nat)
    (known : List Esp32TrainDbEntry) : (emplaceAt e slot known).length = known.length + 1 := by
  rw [(emplaceAt_perm e slot known).length_eq]
  rfl

theorem find_address_some {known : List Esp32TrainDbEntry} {address : Nat}
    {entry : Esp32TrainDbEntry} (h : FIND_TRAIN_BY_ADDRESS known address = some entry) :
    entry ∈ known ∧ entry.get_legacy_address = address := by
  unfold FIND_TRAIN_BY_ADDRESS at h
  exact ⟨List.mem_of_find?_eq_some h, by simpa using List.find?_some h⟩

theorem find_address_none {known : List Esp32TrainDbEntry} {address : Nat} :
    FIND_TRAIN_BY_ADDRESS known address = none
      ↔ ∀ e ∈ known, e.get_legacy_address ≠ address := by
  unfold FIND_TRAIN_BY_ADDRESS
  simp

theorem find_address_of_mem {known : List Esp32TrainDbEntry} {address : Nat}
    (h : ∃ e ∈ known, e.get_legacy_address = address) :
    ∃ entry, FIND_TRAIN_BY_ADDRESS known address = some entry := by
  cases hf : FIND_TRAIN_BY_ADDRESS known address with
  | some entry => exact ⟨entry, rfl⟩
  | none =>
    obtain ⟨e, he, ha⟩ := h
    exact absurd ha (find_address_none.mp hf e he)

theorem add_dynamic_entry_found (defaults : Esp32PersistentTrainData) (slot : Nat)
    (db : Esp32TrainDatabase) (address : Int) (mode : Nat)
    (h : ∃ e ∈ db.knownTrains_, e.get_legacy_address = toUInt16 address) :
    Esp32TrainDatabase.add_dynamic_entry defaults slot db address mode
      = (db, toUInt16 address) := by
  obtain ⟨entry, hf⟩ := find_address_of_mem h
  unfold Esp32TrainDatabase.add_dynamic_entry
  simp only [hf]
  rw [(find_address_some hf).2]

theorem add_dynamic_entry_absent (defaults : Esp32PersistentTrainData) (slot : Nat)
    (db : Esp32TrainDatabase) (address : Int) (mode : Nat)
    (h : ∀ e ∈ db.knownTrains_, e.get_legacy_address ≠ toUInt16 address) :
    Esp32TrainDatabase.add_dynamic_entry defaults slot db address mode
      = ({ db with
            knownTrains_ :=
              emplaceAt
                (Esp32TrainDbEntry.new
                  (Esp32PersistentTrainData.ofAddressMode defaults (toUInt16 address) mode))
                slot db.knownTrains_ },
          toUInt16 address) := by
  unfold Esp32TrainDatabase.add_dynamic_entry
  simp only [find_address_none.mpr h]

theorem new_entry_address (defaults : Esp32PersistentTrainData) (address mode : Nat) :
    (Esp32TrainDbEntry.new
      (Esp32PersistentTrainData.ofAddressMode defaults address mode)).get_legacy_address
      = address := rfl

/-- C11. `add_dynamic_entry` is idempotent: for every roster and every
candidate (address, mode), two calls in a row return the same address (the
candidate's address as a `uint16_t`, which is the address itself when it is a
16-bit value), the roster after the second call is the roster after the first,
and the roster has grown by at most one entry overall. This holds wherever the
container places a new element. -/
theorem add_dynamic_entry_idempotent (defaults : Esp32PersistentTrainData)
    (slot1 slot2 : Nat) (db : Esp32TrainDatabase) (address : Int) (mode : Nat) :
    (Esp32TrainDatabase.add_dynamic_entry defaults slot1 db address mode).2
        = toUInt16 address
      ∧ (Esp32TrainDatabase.add_dynamic_entry defaults slot2
          (Esp32TrainDatabase.add_dynamic_entry defaults slot1 db address mode).1
          address mode).2 = toUInt16 address
      ∧ (0 ≤ address → address < 65536 → ((toUInt16 address : Nat) : Int) = address)
      ∧ (Esp32TrainDatabase.add_dynamic_entry defaults slot2
          (Esp32TrainDatabase.add_dynamic_entry defaults slot1 db address mode).1
          address mode).1
        = (Esp32TrainDatabase.add_dynamic_entry defaults slot1 db address mode).1
      ∧ (Esp32TrainDatabase.add_dynamic_entry defaults slot2
          (Esp32TrainDatabase.add_dynamic_entry defaults slot1 db address mode).1
          address mode).1.knownTrains_.length ≤ db.knownTrains_.length + 1 := by
  have hrange : 0 ≤ address → address < 65536 → ((toUInt16 address : Nat) : Int) = address := by
    intro h0 h1
    unfold toUInt16
    omega
  obtain ⟨db1, e1, hmem, hlen⟩ : ∃ db1 : Esp32TrainDatabase,
      Esp32TrainDatabase.add_dynamic_entry defaults slot1 db address mode
        = (db1, toUInt16 address)
      ∧ (∃ e ∈ db1.knownTrains_, e.get_legacy_address = toUInt16 address)
      ∧ db1.knownTrains_.length ≤ db.knownTrains_.length + 1 := by
    by_cases h : ∃ e ∈ db.knownTrains_, e.get_legacy_address = toUInt16 address
    · exact ⟨db, add_dynamic_entry_found defaults slot1 db address mode h, h, Nat.le_succ _⟩
    · have habs : ∀ e ∈ db.knownTrains_, e.get_legacy_address ≠ toUInt16 address :=
        fun e he ha => h ⟨e, he, ha⟩
      refine ⟨_, add_dynamic_entry_absent defaults slot1 db address mode habs, ?_, ?_⟩
      · exact ⟨_, (emplaceAt_perm _ slot1 db.knownTrains_).mem_iff.mpr
          (List.mem_cons_self _ _), new_entry_address defaults (toUInt16 address) mode⟩
      · exact Nat.le_of_eq (emplaceAt_length _ slot1 db.knownTrains_)
  have e2 := add_dynamic_entry_found defaults slot2 db1 address mode hmem
  rw [e1]
  refine ⟨rfl, ?_, hrange, ?_, ?_⟩
  · show (Esp32TrainDatabase.add_dynamic_entry defaults slot2 db1 address mode).2 = _
    rw [e2]
  · show (Esp32TrainDatabase.add_dynamic_entry defaults slot2 db1 address mode).1 = db1
    rw [e2]
  · show (Esp32TrainDatabase.add_dynamic_entry defaults slot2 db1 address mode).1.knownTrains_.length
      ≤ _
    rw [e2]
    exact hlen

theorem add_dynamic_entry_nodup (defaults : Esp32PersistentTrainData) (slot : Nat)
    (db : Esp32TrainDatabase) (address : Int) (mode : Nat)
    (h : (db.knownTrains_.map Esp32TrainDbEntry.get_legacy_address).Nodup) :
    ((Esp32TrainDatabase.add_dynamic_entry defaults slot db address mode).1.knownTrains_.map
      Esp32TrainDbEntry.get_legacy_address).Nodup := by
  by_cases hex : ∃ e ∈ db.knownTrains_, e.get_legacy_address = toUInt16 address
  · rw [add_dynamic_entry_found defaults slot db address mode hex]
    exact h
  · have habs : ∀ e ∈ db.knownTrains_, e.get_legacy_address ≠ toUInt16 address :=
      fun e he ha => hex ⟨e, he, ha⟩
    rw [add_dynamic_entry_absent defaults slot db address mode habs]
    show ((emplaceAt _ slot db.knownTrains_).map Esp32TrainDbEntry.get_legacy_address).Nodup
    rw [((emplaceAt_perm _ slot db.knownTrains_).map _).nodup_iff, List.map_cons,
      List.nodup_cons]
    refine ⟨?_, h⟩
    intro hmem
    obtain ⟨e, he, ha⟩ := List.mem_map.mp hmem
    exact habs e he (ha.trans (new_entry_address defaults (toUInt16 address) mode))

/-- C12. Uniqueness is enforced at insert. If no two roster entries share an
address before `add_dynamic_entry`, none do afterwards. When an entry with the
candidate's address exists (whatever its mode), the call leaves the whole
database, every entry with all its fields, as it was. Otherwise exactly one
entry is added, the others keep their order, and the new entry has the
candidate's address and mode and the default remaining fields. -/
theorem add_dynamic_entry_enforces_unique_address (defaults : Esp32PersistentTrainData)
    (slot : Nat) (db : Esp32TrainDatabase) (address : Int) (mode : Nat) :
    ((db.knownTrains_.map Esp32TrainDbEntry.get_legacy_address).Nodup →
        ((Esp32TrainDatabase.add_dynamic_entry defaults slot db address mode).1.knownTrains_.map
          Esp32TrainDbEntry.get_legacy_address).Nodup)
      ∧ ((∃ e ∈ db.knownTrains_, e.get_legacy_address = toUInt16 address) →
          (Esp32TrainDatabase.add_dynamic_entry defaults slot db address mode).1 = db)
      ∧ ((∀ e ∈ db.knownTrains_, e.get_legacy_address ≠ toUInt16 address) →
          ∃ pre post added,
            db.knownTrains_ = pre ++ post
            ∧ (Esp32TrainDatabase.add_dynamic_entry defaults slot db address mode).1.knownTrains_
                = pre ++ added :: post
            ∧ added.props_ = { defaults with address := toUInt16 address, mode := mode }
            ∧ added.maxFn_ = defaults.functions.length
            ∧ (Esp32TrainDatabase.add_dynamic_entry defaults slot db address mode).1.dirty_
                = db.dirty_
            ∧ (Esp32TrainDatabase.add_dynamic_entry defaults slot db address
                mode).1.legacyEntriesFound_ = db.legacyEntriesFound_) := by
  refine ⟨add_dynamic_entry_nodup defaults slot db address mode, ?_, ?_⟩
  · intro h
    rw [add_dynamic_entry_found defaults slot db address mode h]
  · intro h
    rw [add_dynamic_entry_absent defaults slot db address mode h]
    obtain ⟨pre, post, h1, h2⟩ := emplaceAt_split
      (Esp32TrainDbEntry.new
        (Esp32PersistentTrainData.ofAddressMode defaults (toUInt16 address) mode))
      slot db.knownTrains_
    exact ⟨pre, post, _, h1, h2, rfl, rfl, rfl, rfl⟩

theorem add_dynamic_entry_enforces_unique_address_witness :
    (([] : List Esp32TrainDbEntry).map Esp32TrainDbEntry.get_legacy_address).Nodup
      ∧ ((Esp32TrainDatabase.add_dynamic_entry
            { address := 0, name := "", automatic_idle := false,
              show_on_limited_throttles := false, functions := [], mode := 0 }
            0 { knownTrains_ := [], dirty_ := false, legacyEntriesFound_ := false }
            3 1).1.knownTrains_.map Esp32TrainDbEntry.get_legacy_address).Nodup :=
  ⟨List.nodup_nil,
   (add_dynamic_entry_enforces_unique_address
      { address := 0, name := "", automatic_idle := false,
        show_on_limited_throttles := false, functions := [], mode := 0 }
      0 { knownTrains_ := [], dirty_ := false, legacyEntriesFound_ := false }
      3 1).1 List.nodup_nil⟩

/-! ## Roster: construction -/

theorem emplaceAll_perm (place : Nat → Nat) (datas : List Esp32PersistentTrainData)
    (known : List Esp32TrainDbEntry) :
    (emplaceAll place datas known).Perm (known ++ datas.map Esp32TrainDbEntry.new) := by
  induction datas generalizing known with
  | nil => simp [emplaceAll]
  | cons d rest ih =>
    simp only [emplaceAll, List.map_cons]
    refine (ih _).trans ?_
    refine ((emplaceAt_perm _ _ known).append_right _).trans ?_
    simp only [List.cons_append]
    exact List.perm_middle.symm

theorem new_knownTrains_perm (place : Nat → Nat) (blank : Esp32PersistentTrainData)
    (legacyEntriesFound : Bool) (stored_trains : Option (List Esp32PersistentTrainData))
    (roster : Option (List LegacyRosterEntry)) :
    (Esp32TrainDatabase.new place blank legacyEntriesFound stored_trains roster).knownTrains_.Perm
      ((stored_trains.getD []).map Esp32TrainDbEntry.new
        ++ ((roster.getD []).map (legacyData blank)).map Esp32TrainDbEntry.new) := by
  cases stored_trains with
  | none =>
    cases roster with
    | none => simp [Esp32TrainDatabase.new]
    | some r =>
      have h := emplaceAll_perm place (r.map (legacyData blank)) []
      simpa [Esp32TrainDatabase.new] using h
  | some st =>
    cases roster with
    | none => simpa [Esp32TrainDatabase.new] using emplaceAll_perm place st []
    | some r =>
      simp only [Esp32TrainDatabase.new, Option.getD_some]
      refine (emplaceAll_perm place _ _).trans ?_
      exact (emplaceAll_perm place st []).append_right _

theorem add_dynamic_entries_nodup (defaults : Esp32PersistentTrainData)
    (calls : List (Nat × Int × Nat)) (db : Esp32TrainDatabase)
    (h : (db.knownTrains_.map Esp32TrainDbEntry.get_legacy_address).Nodup) :
    ((add_dynamic_entries defaults calls db).knownTrains_.map
      Esp32TrainDbEntry.get_legacy_address).Nodup := by
  induction calls generalizing db with
  | nil => exact h
  | cons c rest ih =>
    obtain ⟨slot, address, mode⟩ := c
    simp only [add_dynamic_entries]
    exact ih _ (add_dynamic_entry_nodup defaults slot db address mode h)

theorem roster_nodup_of_documents_nodup (place : Nat → Nat)
    (blank defaults : Esp32PersistentTrainData) (legacyEntriesFound : Bool)
    (stored_trains : Option (List Esp32PersistentTrainData))
    (roster : Option (List LegacyRosterEntry)) (calls : List (Nat × Int × Nat))
    (h : ((stored_trains.getD []).map (fun d => d.address)
          ++ (roster.getD []).map (fun e => toUInt16 e.address)).Nodup) :
    ((add_dynamic_entries defaults calls
        (Esp32TrainDatabase.new place blank legacyEntriesFound stored_trains
          roster)).knownTrains_.map Esp32TrainDbEntry.get_legacy_address).Nodup := by
  apply add_dynamic_entries_nodup
  rw [((new_knownTrains_perm place blank legacyEntriesFound stored_trains roster).map
    _).nodup_iff]
  have e : (List.map Esp32TrainDbEntry.new (stored_trains.getD [])
        ++ List.map Esp32TrainDbEntry.new
            (List.map (legacyData blank) (roster.getD []))).map
          Esp32TrainDbEntry.get_legacy_address
      = (stored_trains.getD []).map (fun d => d.address)
          ++ (roster.getD []).map (fun e => toUInt16 e.address) := by
    simp only [List.map_append, List.map_map]
    rfl
  rw [e]
  exact h

/-- C13. Evaluation at the failing input: the persisted roster document holds
one locomotive at address 3 and the legacy roster document holds one
locomotive at address 3. Construction emplaces both, so the roster has two
entries with address 3, and `add_dynamic_entry` for address 3 leaves both in
place. -/
theorem construction_loads_duplicate_addresses :
    (Esp32TrainDatabase.new (fun _ => 0)
        { address := 0, name := "", automatic_idle := false,
          show_on_limited_throttles := false, functions := [], mode := 0 }
        false
        (some [{ address := 3, name := "A", automatic_idle := false,
                 show_on_limited_throttles := false, functions := [], mode := 0 }])
        (some [{ address := 3, description := "B", idleOnStartup := "false",
                 defaultOnThrottle := "false" }])).knownTrains_.map
        Esp32TrainDbEntry.get_legacy_address = [3, 3]
      ∧ ((Esp32TrainDatabase.add_dynamic_entry
            { address := 0, name := "", automatic_idle := false,
              show_on_limited_throttles := false, functions := [], mode := 0 }
            0
            (Esp32TrainDatabase.new (fun _ => 0)
              { address := 0, name := "", automatic_idle := false,
                show_on_limited_throttles := false, functions := [], mode := 0 }
              false
              (some [{ address := 3, name := "A", automatic_idle := false,
                       show_on_limited_throttles := false, functions := [], mode := 0 }])
              (some [{ address := 3, description := "B", idleOnStartup := "false",
                       defaultOnThrottle := "false" }]))
            3 0).1.knownTrains_.map Esp32TrainDbEntry.get_legacy_address) = [3, 3]
      ∧ ¬ ([3, 3] : List Nat).Nodup := by
  decide

/-! ## Roster: lookup -/

/-- C14, as the claim states it, fails: in a roster whose two entries, named A
and B in iteration order, both have address 3 (and, in the gateway-user mode,
the same node identifier), `get_entry(3)` and `find_entry` return A, the
match that comes first, not B, the match that comes last. -/
theorem get_entry_last_match_counterexample :
    Esp32TrainDatabase.get_entry
        { knownTrains_ :=
            [Esp32TrainDbEntry.new
              { address := 3, name := "A", automatic_idle := false,
                show_on_limited_throttles := false, functions := [], mode := 1 },
             Esp32TrainDbEntry.new
              { address := 3, name := "B", automatic_idle := false,
                show_on_limited_throttles := false, functions := [], mode := 1 }],
          dirty_ := false, legacyEntriesFound_ := false } 3
      = some (Esp32TrainDbEntry.new
              { address := 3, name := "A", automatic_idle := false,
                show_on_limited_throttles := false, functions := [], mode := 1 })
    ∧ Esp32TrainDatabase.find_entry
        { DCCMODE_OLCBUSER := 1, DCC_SS_MASK := 3, FN_NONEXISTANT := 0,
          dcc_mode_to_address_type := fun _ _ => TrainAddressType.DCC_SHORT_ADDRESS,
          train_node_id_from_legacy := fun _ a => a }
        { knownTrains_ :=
            [Esp32TrainDbEntry.new
              { address := 3, name := "A", automatic_idle := false,
                show_on_limited_throttles := false, functions := [], mode := 1 },
             Esp32TrainDbEntry.new
              { address := 3, name := "B", automatic_idle := false,
                show_on_limited_throttles := false, functions := [], mode := 1 }],
          dirty_ := false, legacyEntriesFound_ := false } 0x050101010003 0
      = some (Esp32TrainDbEntry.new
              { address := 3, name := "A", automatic_idle := false,
                show_on_limited_throttles := false, functions := [], mode := 1 })
    ∧ Esp32TrainDbEntry.new
              { address := 3, name := "A", automatic_idle := false,
                show_on_limited_throttles := false, functions := [], mode := 1 }
      ≠ Esp32TrainDbEntry.new
              { address := 3, name := "B", automatic_idle := false,
                show_on_limited_throttles := false, functions := [], mode := 1 } := by
  decide

theorem find?_first_match (p : Esp32TrainDbEntry → Bool) (l : List Esp32TrainDbEntry)
    (h : ∃ e ∈ l, p e = true) :
    ∃ pre e post, l = pre ++ e :: post ∧ p e = true ∧ (∀ u ∈ pre, p u = false)
      ∧ l.find? p = some e := by
  cases hf : l.find? p with
  | none =>
    obtain ⟨e, he, hp⟩ := h
    have := List.find?_eq_none.mp hf e he
    exact absurd hp this
  | some e =>
    obtain ⟨hp, pre, post, hl, hpre⟩ := List.find?_eq_some.mp hf
    exact ⟨pre, e, post, hl, hp, fun u hu => by simpa using hpre u hu, rfl⟩

/-- C14, amended. First match wins in the roster: for every roster in which at
least one entry has the address (respectively the traction node identifier),
`get_entry(address)` (respectively `find_entry(nodeId, hint)`) returns the
matching entry that comes first in the collection's iteration order: no entry
before it matches. -/
theorem get_entry_first_match (lib : OpenMRN) (db : Esp32TrainDatabase) (key hint : Nat) :
    ((∃ e ∈ db.knownTrains_, e.get_legacy_address = key) →
        ∃ pre e post, db.knownTrains_ = pre ++ e :: post
          ∧ e.get_legacy_address = key
          ∧ (∀ u ∈ pre, u.get_legacy_address ≠ key)
          ∧ db.get_entry key = some e)
      ∧ ((∃ e ∈ db.knownTrains_, e.get_traction_node lib = key) →
        ∃ pre e post, db.knownTrains_ = pre ++ e :: post
          ∧ e.get_traction_node lib = key
          ∧ (∀ u ∈ pre, u.get_traction_node lib ≠ key)
          ∧ db.find_entry lib key hint = some e) := by
  constructor
  · rintro ⟨e0, hmem, hk⟩
    obtain ⟨pre, e, post, hl, hp, hpre, hf⟩ :=
      find?_first_match (fun train => decide (train.get_legacy_address = key))
        db.knownTrains_ ⟨e0, hmem, by simpa using hk⟩
    exact ⟨pre, e, post, hl, by simpa using hp, fun u hu => by simpa using hpre u hu, hf⟩
  · rintro ⟨e0, hmem, hk⟩
    obtain ⟨pre, e, post, hl, hp, hpre, hf⟩ :=
      find?_first_match (fun train => decide (train.get_traction_node lib = key))
        db.knownTrains_ ⟨e0, hmem, by simpa using hk⟩
    exact ⟨pre, e, post, hl, by simpa using hp, fun u hu => by simpa using hpre u hu, hf⟩

theorem get_entry_first_match_witness :
    (∃ e ∈ [Esp32TrainDbEntry.new
              { address := 3, name := "A", automatic_idle := false,
                show_on_limited_throttles := false, functions := [], mode := 1 },
            Esp32TrainDbEntry.new
              { address := 3, name := "B", automatic_idle := false,
                show_on_limited_throttles := false, functions := [], mode := 1 }],
        e.get_legacy_address = 3)
    ∧ ∃ pre e post,
        [Esp32TrainDbEntry.new
              { address := 3, name := "A", automatic_idle := false,
                show_on_limited_throttles := false, functions := [], mode := 1 },
            Esp32TrainDbEntry.new
              { address := 3, name := "B", automatic_idle := false,
                show_on_limited_throttles := false, functions := [], mode := 1 }]
          = pre ++ e :: post
        ∧ e.get_legacy_address = 3
        ∧ (∀ u ∈ pre, u.get_legacy_address ≠ 3)
        ∧ Esp32TrainDatabase.get_entry
            { knownTrains_ :=
                [Esp32TrainDbEntry.new
                  { address := 3, name := "A", automatic_idle := false,
                    show_on_limited_throttles := false, functions := [], mode := 1 },
                 Esp32TrainDbEntry.new
                  { address := 3, name := "B", automatic_idle := false,
                    show_on_limited_throttles := false, functions := [], mode := 1 }],
              dirty_ := false, legacyEntriesFound_ := false } 3 = some e :=
  ⟨⟨_, List.mem_cons_self _ _, rfl⟩,
   (get_entry_first_match
      { DCCMODE_OLCBUSER := 1, DCC_SS_MASK := 3, FN_NONEXISTANT := 0,
        dcc_mode_to_address_type := fun _ _ => TrainAddressType.DCC_SHORT_ADDRESS,
        train_node_id_from_legacy := fun _ a => a }
      { knownTrains_ :=
          [Esp32TrainDbEntry.new
            { address := 3, name := "A", automatic_idle := false,
              show_on_limited_throttles := false, functions := [], mode := 1 },
           Esp32TrainDbEntry.new
            { address := 3, name := "B", automatic_idle := false,
              show_on_limited_throttles := false, functions := [], mode := 1 }],
        dirty_ := false, legacyEntriesFound_ := false } 3 0).1
     ⟨_, List.mem_cons_self _ _, rfl⟩⟩

/-! ## Function labels -/

theorem get_function_label_lt (lib : OpenMRN) (data : Esp32PersistentTrainData) (fn_id : Nat)
    (h : fn_id < data.functions.length) :
    (Esp32TrainDbEntry.new data).get_function_label lib fn_id
      = some (data.functions.get ⟨fn_id, h⟩) := by
  unfold Esp32TrainDbEntry.get_function_label Esp32TrainDbEntry.new
  simp only []
  rw [if_neg (by omega)]
  exact List.getElem?_eq_getElem h

theorem get_function_label_gt (lib : OpenMRN) (data : Esp32PersistentTrainData) (fn_id : Nat)
    (h : data.functions.length < fn_id) :
    (Esp32TrainDbEntry.new data).get_function_label lib fn_id = some lib.FN_NONEXISTANT := by
  unfold Esp32TrainDbEntry.get_function_label Esp32TrainDbEntry.new
  simp only []
  rw [if_pos h]

/-- C15. Evaluation at the failing input: for every record, the function
number equal to the number of function labels passes the test
`fn_id > maxFn_` and indexes the functions table at that position, one beyond
its end, instead of returning `FN_NONEXISTANT`; so for a record with the one
label 1 (`LIGHT`), number 0 gives the label, number 2 gives the sentinel and
number 1 reads out of bounds. -/
theorem get_function_label_reads_past_end (lib : OpenMRN)
    (data : Esp32PersistentTrainData) :
    (Esp32TrainDbEntry.new data).get_function_label lib data.functions.length = none
      ∧ (Esp32TrainDbEntry.new data).get_function_label lib data.functions.length
          ≠ some lib.FN_NONEXISTANT
      ∧ (Esp32TrainDbEntry.new
          { address := 3, name := "", automatic_idle := false,
            show_on_limited_throttles := false, functions := [1], mode := 0 }).get_function_label
          lib 0 = some 1
      ∧ (Esp32TrainDbEntry.new
          { address := 3, name := "", automatic_idle := false,
            show_on_limited_throttles := false, functions := [1], mode := 0 }).get_function_label
          lib 1 = none
      ∧ (Esp32TrainDbEntry.new
          { address := 3, name := "", automatic_idle := false,
            show_on_limited_throttles := false, functions := [1], mode := 0 }).get_function_label
          lib 2 = some lib.FN_NONEXISTANT := by
  have h : (Esp32TrainDbEntry.new data).get_function_label lib data.functions.length = none := by
    unfold Esp32TrainDbEntry.get_function_label Esp32TrainDbEntry.new
    simp
  refine ⟨h, ?_, ?_, ?_, ?_⟩
  · rw [h]
    exact fun hc => nomatch hc
  · rfl
  · rfl
  · rfl

/-! ## Traction node identifier -/

theorem olcbuser_or_eq_add (a : Nat) (h : a < 65536) :
    0x050101010000 ||| a = 0x050101010000 + a := by
  have e : (0x050101010000 : Nat) = 2 ^ 16 * 0x05010101 := by norm_num
  rw [e]
  exact (Nat.mul_add_lt_is_or (by simpa using h) 0x05010101).symm

/-- C16. For every record in the gateway-user mode (`DCCMODE_OLCBUSER`) and
every 16-bit address `a`, `get_traction_node` returns `0x050101010000 | a`,
which equals `0x050101010000 + a`, is below `2^48`, has the upper 32 bits
`0x05010101` and the low 16 bits `a`; hence records in that mode with distinct
addresses have distinct node identifiers. For every other mode the result is
the library mapping applied to the address type of (mode, address) and the
address. -/
theorem get_traction_node_spec (lib : OpenMRN) (e : Esp32TrainDbEntry) :
    (e.props_.mode = lib.DCCMODE_OLCBUSER → e.props_.address < 65536 →
        e.get_traction_node lib = 0x050101010000 ||| e.props_.address
        ∧ e.get_traction_node lib = 0x050101010000 + e.props_.address
        ∧ e.get_traction_node lib < 2 ^ 48
        ∧ e.get_traction_node lib >>> 16 = 0x05010101
        ∧ e.get_traction_node lib % 2 ^ 16 = e.props_.address
        ∧ ∀ e2 : Esp32TrainDbEntry, e2.props_.mode = lib.DCCMODE_OLCBUSER →
            e2.props_.address < 65536 →
            e2.get_traction_node lib = e.get_traction_node lib →
            e2.props_.address = e.props_.address)
      ∧ (e.props_.mode ≠ lib.DCCMODE_OLCBUSER →
        e.get_traction_node lib
          = lib.train_node_id_from_legacy
              (lib.dcc_mode_to_address_type e.props_.mode e.props_.address)
              e.props_.address) := by
  constructor
  · intro hm ha
    have h1 : e.get_traction_node lib = 0x050101010000 ||| e.props_.address := by
      unfold Esp32TrainDbEntry.get_traction_node
      rw [if_pos hm]
    have h2 : e.get_traction_node lib = 0x050101010000 + e.props_.address := by
      rw [h1, olcbuser_or_eq_add _ ha]
    refine ⟨h1, h2, ?_, ?_, ?_, ?_⟩
    · rw [h2]
      omega
    · rw [h2, Nat.shiftRight_eq_div_pow]
      omega
    · rw [h2]
      omega
    · intro e2 hm2 ha2 heq
      have h3 : e2.get_traction_node lib = 0x050101010000 + e2.props_.address := by
        unfold Esp32TrainDbEntry.get_traction_node
        rw [if_pos hm2, olcbuser_or_eq_add _ ha2]
      rw [h2, h3] at heq
      omega
  · intro hm
    unfold Esp32TrainDbEntry.get_traction_node
    rw [if_neg hm]

theorem get_traction_node_spec_witness :
    Esp32TrainDbEntry.get_traction_node
        { DCCMODE_OLCBUSER := 1, DCC_SS_MASK := 3, FN_NONEXISTANT := 0,
          dcc_mode_to_address_type := fun _ _ => TrainAddressType.DCC_SHORT_ADDRESS,
          train_node_id_from_legacy := fun _ a => a }
        (Esp32TrainDbEntry.new
          { address := 3, name := "", automatic_idle := false,
            show_on_limited_throttles := false, functions := [], mode := 1 })
      = 0x050101010000 + 3 :=
  ((get_traction_node_spec
      { DCCMODE_OLCBUSER := 1, DCC_SS_MASK := 3, FN_NONEXISTANT := 0,
        dcc_mode_to_address_type := fun _ _ => TrainAddressType.DCC_SHORT_ADDRESS,
        train_node_id_from_legacy := fun _ a => a }
      (Esp32TrainDbEntry.new
        { address := 3, name := "", automatic_idle := false,
          show_on_limited_throttles := false, functions := [], mode := 1 })).1
    rfl (by decide)).2.1

/-! ## Accessory packet: the activate bit and the fields of the bytes -/

theorem byte1_activate_xor : ∀ (y : Fin 8) (z : Fin 4),
    (((y.val <<< 4) + (z.val <<< 1) + 1) ^^^ 0xF8)
        ^^^ (((y.val <<< 4) + (z.val <<< 1) + 0) ^^^ 0xF8) = 1
      ∧ ((((y.val <<< 4) + (z.val <<< 1) + 1) ^^^ 0xF8) % 256)
        ^^^ ((((y.val <<< 4) + (z.val <<< 1) + 0) ^^^ 0xF8) % 256) = 1 := by decide

/-- C18. For every boardAddress and boardIndex the packets encoded with
activate = 1 and with activate = 0 have the same byte0, and their byte1 values
differ in the least significant bit only: the XOR of the two is 0x01. The
packet is a function of its three inputs, so equal inputs give equal bytes. -/
theorem accessoryPacket_activate_changes_lsb_only (boardAddress boardIndex : Nat) :
    (∃ byte0 thrown1 closed1,
        accessoryPacket boardAddress boardIndex true = [byte0, thrown1]
        ∧ accessoryPacket boardAddress boardIndex false = [byte0, closed1]
        ∧ thrown1 ^^^ closed1 = 0x01)
      ∧ accessoryByte1 boardAddress boardIndex true
          ^^^ accessoryByte1 boardAddress boardIndex false = 0x01
      ∧ (∀ (b2 i2 : Nat) (a a2 : Bool), b2 = boardAddress → i2 = boardIndex → a2 = a →
          accessoryPacket b2 i2 a2 = accessoryPacket boardAddress boardIndex a) := by
  have h := byte1_activate_xor ⟨(boardAddress / 64) % 8, Nat.mod_lt _ (by decide)⟩
    ⟨boardIndex % 4, Nat.mod_lt _ (by decide)⟩
  simp only [] at h
  refine ⟨⟨_, _, _, rfl, rfl, h.2⟩, h.1, ?_⟩
  intro b2 i2 a a2 hb hi ha
  rw [hb, hi, ha]

/-- C19, as the claim states it, fails: for board 0, index 0 and activate = 0
byte1 is 0xF8, whose sub-index field (bits 2..1) is 0, the index itself and not
its complement 3, and whose activate bit (bit 0) is 0, the flag itself and not
its complement 1. -/
theorem accessoryPacket_low_bits_inverted_counterexample :
    accessoryPacket 0 0 false = [0x80, 0xF8]
      ∧ (accessoryByte1 0 0 false / 2) % 4 = 0 % 4
      ∧ (accessoryByte1 0 0 false / 2) % 4 ≠ 3 - 0 % 4
      ∧ accessoryByte1 0 0 false % 2 = false.toNat
      ∧ accessoryByte1 0 0 false % 2 ≠ 1 - false.toNat := by
  decide

theorem byte1_fields : ∀ (y : Fin 8) (z : Fin 4) (c : Fin 2),
    (((y.val <<< 4) + (z.val <<< 1) + c.val) ^^^ 0xF8) / 128 = 1
      ∧ ((((y.val <<< 4) + (z.val <<< 1) + c.val) ^^^ 0xF8) / 16) % 8 = 7 - y.val
      ∧ ((((y.val <<< 4) + (z.val <<< 1) + c.val) ^^^ 0xF8) / 8) % 2 = 1
      ∧ ((((y.val <<< 4) + (z.val <<< 1) + c.val) ^^^ 0xF8) / 2) % 4 = z.val
      ∧ (((y.val <<< 4) + (z.val <<< 1) + c.val) ^^^ 0xF8) % 2 = c.val := by decide

/-- C19, amended. In the encoded accessory packet byte0 has the fixed high-bit
pattern 10 and its low 6 bits are boardAddress mod 64. In byte1 bit 7 is 1, the
three address bits (bits 6..4) are the complement of (boardAddress/64) mod 8,
the fixed control bit (bit 3) is 1, the 2-bit sub-index field (bits 2..1) is
boardIndex mod 4 and the activate bit (bit 0) is the activate flag, these two
not inverted. -/
theorem accessoryPacket_bit_fields (boardAddress boardIndex : Nat) (activate : Bool) :
    accessoryPacket boardAddress boardIndex activate
        = [accessoryByte0 boardAddress, accessoryByte1 boardAddress boardIndex activate]
      ∧ accessoryByte0 boardAddress / 64 = 2
      ∧ accessoryByte0 boardAddress % 64 = boardAddress % 64
      ∧ accessoryByte1 boardAddress boardIndex activate / 128 = 1
      ∧ (accessoryByte1 boardAddress boardIndex activate / 16) % 8
          = 7 - (boardAddress / 64) % 8
      ∧ (accessoryByte1 boardAddress boardIndex activate / 8) % 2 = 1
      ∧ (accessoryByte1 boardAddress boardIndex activate / 2) % 4 = boardIndex % 4
      ∧ accessoryByte1 boardAddress boardIndex activate % 2 = activate.toNat := by
  have h := byte1_fields ⟨(boardAddress / 64) % 8, Nat.mod_lt _ (by decide)⟩
    ⟨boardIndex % 4, Nat.mod_lt _ (by decide)⟩ ⟨activate.toNat, toNat_lt_two activate⟩
  simp only [] at h
  have l1 : accessoryByte1 boardAddress boardIndex activate < 256 := by
    have h7 : accessoryByte1 boardAddress boardIndex activate / 128 = 1 := h.1
    omega
  have l0 : accessoryByte0 boardAddress < 256 := by unfold accessoryByte0; omega
  refine ⟨?_, ?_, ?_, h.1, h.2.1, h.2.2.1, h.2.2.2.1, h.2.2.2.2⟩
  · unfold accessoryPacket
    rw [Nat.mod_eq_of_lt l0, Nat.mod_eq_of_lt l1]
  · unfold accessoryByte0; omega
  · unfold accessoryByte0; omega

/-! ## Legacy migration -/

/-- C20. Legacy migration: for every legacy roster document and an empty or
absent persisted roster document, construction yields a roster of exactly as
many records as the legacy document has entries, one per legacy entry, each
with the entry's address (as a `uint16_t`, the address itself when it is a
16-bit value), name equal to the legacy description, `automatic_idle` true iff
the legacy idle flag is exactly the string `true` and
`show_on_limited_throttles` true iff the legacy throttle flag is exactly the
string `true`; afterwards the dirty flag and the legacy-entries-found flag are
both set. -/
theorem legacy_migration (place : Nat → Nat) (blank : Esp32PersistentTrainData)
    (legacyEntriesFound : Bool) (stored_trains : Option (List Esp32PersistentTrainData))
    (roster : List LegacyRosterEntry)
    (hstored : stored_trains = none ∨ stored_trains = some []) :
    (Esp32TrainDatabase.new place blank legacyEntriesFound stored_trains
        (some roster)).knownTrains_.length = roster.length
      ∧ (Esp32TrainDatabase.new place blank legacyEntriesFound stored_trains
          (some roster)).knownTrains_.Perm
          (roster.map (fun entry => Esp32TrainDbEntry.new (legacyData blank entry)))
      ∧ (∀ entry : LegacyRosterEntry,
          (Esp32TrainDbEntry.new (legacyData blank entry)).props_.address
              = toUInt16 entry.address
          ∧ (0 ≤ entry.address → entry.address < 65536 →
              ((Esp32TrainDbEntry.new (legacyData blank entry)).get_legacy_address : Int)
                = entry.address)
          ∧ (Esp32TrainDbEntry.new (legacyData blank entry)).props_.name = entry.description
          ∧ ((Esp32TrainDbEntry.new (legacyData blank entry)).props_.automatic_idle = true
              ↔ entry.idleOnStartup = "true")
          ∧ ((Esp32TrainDbEntry.new
                (legacyData blank entry)).props_.show_on_limited_throttles = true
              ↔ entry.defaultOnThrottle = "true"))
      ∧ (Esp32TrainDatabase.new place blank legacyEntriesFound stored_trains
          (some roster)).dirty_ = true
      ∧ (Esp32TrainDatabase.new place blank legacyEntriesFound stored_trains
          (some roster)).legacyEntriesFound_ = true := by
  have hperm := new_knownTrains_perm place blank legacyEntriesFound stored_trains (some roster)
  have hnil : (stored_trains.getD []).map Esp32TrainDbEntry.new = [] := by
    rcases hstored with h | h <;> rw [h] <;> rfl
  rw [hnil, List.nil_append, Option.getD_some, List.map_map] at hperm
  refine ⟨?_, hperm, ?_, ?_, ?_⟩
  · rw [hperm.length_eq, List.length_map]
  · intro entry
    refine ⟨rfl, ?_, rfl, ?_, ?_⟩
    · intro h0 h1
      show ((toUInt16 entry.address : Nat) : Int) = entry.address
      unfold toUInt16
      omega
    · show decide (entry.idleOnStartup = JSON_VALUE_TRUE) = true ↔ _
      simp [JSON_VALUE_TRUE]
    · show decide (entry.defaultOnThrottle = JSON_VALUE_TRUE) = true ↔ _
      simp [JSON_VALUE_TRUE]
  · rcases hstored with h | h <;> rw [h] <;> rfl
  · rcases hstored with h | h <;> rw [h] <;> rfl

theorem legacy_migration_witness :
    (Esp32TrainDatabase.new (fun _ => 0)
        { address := 0, name := "", automatic_idle := false,
          show_on_limited_throttles := false, functions := [], mode := 0 }
        false none
        (some [{ address := 3, description := "B", idleOnStartup := "true",
                 defaultOnThrottle := "false" }])).knownTrains_.length
      = [({ address := 3, description := "B", idleOnStartup := "true",
            defaultOnThrottle := "false" } : LegacyRosterEntry)].length :=
  (legacy_migration (fun _ => 0)
      { address := 0, name := "", automatic_idle := false,
        show_on_limited_throttles := false, functions := [], mode := 0 }
      false none
      [{ address := 3, description := "B", idleOnStartup := "true",
         defaultOnThrottle := "false" }] (Or.inl rfl)).1

/-! ## Identifier -/

theorem toDigitsCore_append (f n : Nat) (ds : List Char) :
    Nat.toDigitsCore 10 f n ds = Nat.toDigitsCore 10 f n [] ++ ds := by
  induction f generalizing n ds with
  | zero => rfl
  | succ f ih =>
    simp only [Nat.toDigitsCore]
    by_cases h : n / 10 = 0
    · simp [h]
    · simp only [h, if_false]
      rw [ih (n / 10) (Nat.digitChar (n % 10) :: ds), ih (n / 10) [Nat.digitChar (n % 10)]]
      simp

theorem digitChar_value : ∀ d : Fin 10, (Nat.digitChar d.val).toNat - 48 = d.val := by decide

theorem digitChar_ne_slash : ∀ d : Fin 10, Nat.digitChar d.val ≠ '/' := by decide

theorem toDigitsCore_value (f n : Nat) (h : n < f) :
    (Nat.toDigitsCore 10 f n []).foldl (fun acc c => acc * 10 + (c.toNat - 48)) 0 = n := by
  induction f generalizing n with
  | zero => omega
  | succ f ih =>
    have hd := digitChar_value ⟨n % 10, Nat.mod_lt _ (by decide)⟩
    simp only [] at hd
    simp only [Nat.toDigitsCore]
    by_cases h0 : n / 10 = 0
    · simp only [h0, if_true, List.foldl_cons, List.foldl_nil]
      omega
    · simp only [h0, if_false]
      rw [toDigitsCore_append, List.foldl_append, ih (n / 10) (by omega)]
      simp only [List.foldl_cons, List.foldl_nil]
      omega

theorem toDigitsCore_no_slash (f n : Nat) : ∀ c ∈ Nat.toDigitsCore 10 f n [], c ≠ '/' := by
  induction f generalizing n with
  | zero =>
    intro c hc
    simp [Nat.toDigitsCore] at hc
  | succ f ih =>
    have hd := digitChar_ne_slash ⟨n % 10, Nat.mod_lt _ (by decide)⟩
    simp only [] at hd
    intro c hc
    simp only [Nat.toDigitsCore] at hc
    by_cases h0 : n / 10 = 0
    · simp only [h0, if_true, List.mem_singleton] at hc
      rw [hc]
      exact hd
    · simp only [h0, if_false] at hc
      rw [toDigitsCore_append, List.mem_append, List.mem_singleton] at hc
      rcases hc with hc | hc
      · exact ih (n / 10) c hc
      · rw [hc]
        exact hd

theorem decimal_data (n : Nat) : (decimal n).data = Nat.toDigitsCore 10 (n + 1) n [] := rfl

theorem decimal_injective (n m : Nat) (h : (decimal n).data = (decimal m).data) : n = m := by
  rw [decimal_data, decimal_data] at h
  have hn := toDigitsCore_value (n + 1) n (Nat.lt_succ_self n)
  have hm := toDigitsCore_value (m + 1) m (Nat.lt_succ_self m)
  rw [h] at hn
  exact hn.symm.trans hm

theorem decimal_no_slash (n : Nat) : ∀ c ∈ (decimal n).data, c ≠ '/' := by
  rw [decimal_data]
  exact toDigitsCore_no_slash (n + 1) n

theorem front_eq_of_append_eq (a : Char) (xs ys r t : List Char)
    (hx : ∀ c ∈ xs, c ≠ a) (hy : ∀ c ∈ ys, c ≠ a)
    (h : xs ++ a :: r = ys ++ a :: t) : xs = ys := by
  induction xs generalizing ys with
  | nil =>
    cases ys with
    | nil => rfl
    | cons y ys =>
      simp only [List.nil_append, List.cons_append, List.cons.injEq] at h
      exact absurd h.1.symm (hy y (List.mem_cons_self _ _))
  | cons x xs ih =>
    cases ys with
    | nil =>
      simp only [List.nil_append, List.cons_append, List.cons.injEq] at h
      exact absurd h.1 (hx x (List.mem_cons_self _ _))
    | cons y ys =>
      simp only [List.cons_append, List.cons.injEq] at h
      rw [h.1, ih ys (fun c hc => hx c (List.mem_cons_of_mem _ hc))
        (fun c hc => hy c (List.mem_cons_of_mem _ hc)) h.2]

theorem back_eq_of_append_eq (a : Char) (p q d1 d2 : List Char)
    (h1 : ∀ c ∈ d1, c ≠ a) (h2 : ∀ c ∈ d2, c ≠ a)
    (h : p ++ a :: d1 = q ++ a :: d2) : d1 = d2 := by
  have hr := congrArg List.reverse h
  simp only [List.reverse_append, List.reverse_cons, List.append_assoc,
    List.singleton_append] at hr
  have := front_eq_of_append_eq a d1.reverse d2.reverse p.reverse q.reverse
    (fun c hc => h1 c (List.mem_reverse.mp hc)) (fun c hc => h2 c (List.mem_reverse.mp hc)) hr
  exact List.reverse_injective this

theorem identifier_data (lib : OpenMRN) (e : Esp32TrainDbEntry) :
    ∃ p : List Char, (e.identifier lib).data = p ++ '/' :: (decimal e.props_.address).data := by
  unfold Esp32TrainDbEntry.identifier
  simp only []
  split
  · split
    · exact ⟨_, by simp only [String.data_append]; rw [List.append_assoc]; rfl⟩
    · split
      · exact ⟨_, by simp only [String.data_append]; rw [List.append_assoc]; rfl⟩
      · exact ⟨_, by simp only [String.data_append]; rw [List.append_assoc]; rfl⟩
  · split
    · exact ⟨"marklin".data, by simp only [String.data_append]; rfl⟩
    · exact ⟨"unknown".data, by simp only [String.data_append]; rfl⟩

/-- C17. For every record, with `t` the address type of (mode, address): if `t`
is DCC short or DCC long, `identifier()` is
`<family>/<qualifier>/<address in decimal>`, where the qualifier is
`short_address` for short and `long_address` for long and the family is
`dcc_14` when `(mode & DCC_SS_MASK) = 1`, `dcc_28` when it is 2 and `dcc_128`
for every other value; if `t` is the MM type it is `marklin/<address>`;
otherwise it is `unknown/<address>`. Consequently two records with equal
identifiers have equal addresses. -/
theorem identifier_spec (lib : OpenMRN) (e : Esp32TrainDbEntry) :
    (lib.dcc_mode_to_address_type e.props_.mode e.props_.address
          = TrainAddressType.DCC_SHORT_ADDRESS
        ∨ lib.dcc_mode_to_address_type e.props_.mode e.props_.address
          = TrainAddressType.DCC_LONG_ADDRESS →
        e.identifier lib
          = (if e.props_.mode &&& lib.DCC_SS_MASK = 1 then "dcc_14"
             else if e.props_.mode &&& lib.DCC_SS_MASK = 2 then "dcc_28"
             else "dcc_128")
            ++ "/"
            ++ (if lib.dcc_mode_to_address_type e.props_.mode e.props_.address
                  = TrainAddressType.DCC_SHORT_ADDRESS then "short_address"
                else "long_address")
            ++ "/" ++ decimal e.props_.address)
      ∧ (lib.dcc_mode_to_address_type e.props_.mode e.props_.address = TrainAddressType.MM →
        e.identifier lib = "marklin/" ++ decimal e.props_.address)
      ∧ (lib.dcc_mode_to_address_type e.props_.mode e.props_.address
            ≠ TrainAddressType.DCC_SHORT_ADDRESS →
          lib.dcc_mode_to_address_type e.props_.mode e.props_.address
            ≠ TrainAddressType.DCC_LONG_ADDRESS →
          lib.dcc_mode_to_address_type e.props_.mode e.props_.address
            ≠ TrainAddressType.MM →
        e.identifier lib = "unknown/" ++ decimal e.props_.address)
      ∧ (∀ e2 : Esp32TrainDbEntry, e2.identifier lib = e.identifier lib →
          e2.props_.address = e.props_.address) := by
  refine ⟨?_, ?_, ?_, ?_⟩
  · intro h
    unfold Esp32TrainDbEntry.identifier
    simp only []
    rw [if_pos h]
    by_cases h1 : e.props_.mode &&& lib.DCC_SS_MASK = 1
    · rw [if_pos h1, if_pos h1]
      rfl
    · rw [if_neg h1, if_neg h1]
      by_cases h2 : e.props_.mode &&& lib.DCC_SS_MASK = 2
      · rw [if_pos h2, if_pos h2]
        rfl
      · rw [if_neg h2, if_neg h2]
        rfl
  · intro h
    unfold Esp32TrainDbEntry.identifier
    simp only []
    rw [if_neg (by rw [h]; decide), if_pos h]
  · intro h1 h2 h3
    unfold Esp32TrainDbEntry.identifier
    simp only []
    rw [if_neg (by rintro (h | h) <;> contradiction), if_neg h3]
  · intro e2 h
    obtain ⟨p, hp⟩ := identifier_data lib e
    obtain ⟨q, hq⟩ := identifier_data lib e2
    rw [h, hp] at hq
    have hd := back_eq_of_append_eq '/' p q _ _ (decimal_no_slash e.props_.address)
      (decimal_no_slash e2.props_.address) hq
    exact (decimal_injective _ _ hd).symm

theorem identifier_spec_witness :
    Esp32TrainDbEntry.identifier
        { DCCMODE_OLCBUSER := 1, DCC_SS_MASK := 3, FN_NONEXISTANT := 0,
          dcc_mode_to_address_type := fun _ _ => TrainAddressType.DCC_SHORT_ADDRESS,
          train_node_id_from_legacy := fun _ a => a }
        (Esp32TrainDbEntry.new
          { address := 3, name := "", automatic_idle := false,
            show_on_limited_throttles := false, functions := [], mode := 10 })
      = "dcc_28/short_address/3" :=
  ((identifier_spec
      { DCCMODE_OLCBUSER := 1, DCC_SS_MASK := 3, FN_NONEXISTANT := 0,
        dcc_mode_to_address_type := fun _ _ => TrainAddressType.DCC_SHORT_ADDRESS,
        train_node_id_from_legacy := fun _ a => a }
      (Esp32TrainDbEntry.new
        { address := 3, name := "", automatic_idle := false,
          show_on_limited_throttles := false, functions := [], mode := 10 })).1
    (Or.inl rfl)).trans (by decide)

/-! ## Descriptor files: diff before write -/

/-- C21. Diff before write: for every rendered descriptor text and every prior
file state, `create_config_descriptor_xml` writes the file if and only if the
file is absent or its content differs from the rendered text; afterwards the
file content is the rendered text and no other file has changed, so a second
call with the same configuration performs no write and changes nothing. -/
theorem create_config_descriptor_xml_diff_before_write (cdi_string filename : String)
    (files : String → Option String) :
    ((create_config_descriptor_xml cdi_string filename files).2 = true
        ↔ files filename = none
          ∨ ∃ current_str, files filename = some current_str ∧ current_str ≠ cdi_string)
      ∧ (create_config_descriptor_xml cdi_string filename files).1 filename = some cdi_string
      ∧ (∀ name, name ≠ filename →
          (create_config_descriptor_xml cdi_string filename files).1 name = files name)
      ∧ create_config_descriptor_xml cdi_string filename
          (create_config_descriptor_xml cdi_string filename files).1
        = ((create_config_descriptor_xml cdi_string filename files).1, false) := by
  have hafter : (create_config_descriptor_xml cdi_string filename files).1 filename
      = some cdi_string := by
    unfold create_config_descriptor_xml
    cases h : files filename with
    | none => simp
    | some cur =>
      by_cases hc : cur = cdi_string
      · simp [hc, h]
      · simp [hc]
  refine ⟨?_, hafter, ?_, ?_⟩
  · unfold create_config_descriptor_xml
    cases h : files filename with
    | none => simp
    | some cur =>
      by_cases hc : cur = cdi_string
      · simp [hc]
      · simp [hc]
  · intro name hname
    unfold create_config_descriptor_xml
    cases h : files filename with
    | none => simp [hname]
    | some cur =>
      by_cases hc : cur = cdi_string
      · simp [hc]
      · simp [hc, hname]
  · generalize (create_config_descriptor_xml cdi_string filename files).1 = after at hafter
    unfold create_config_descriptor_xml
    simp [hafter]

/-! ## Listing the turnouts -/

/-- C22. Evaluation at the failing input: on an empty store the `<T>` command
with no arguments emits nothing, not the failure response `<X>`; on a store
with turnouts it prints one `<H ID ADDRESS SUBADDRESS THROW>` line for each,
in list order. -/
theorem turnout_command_list_empty_store_emits_nothing (enabled : Bool) :
    TurnoutCommandAdapter.process enabled [] [] = some ([], [])
      ∧ TurnoutCommandAdapter.process enabled [] []
          ≠ some ([], [Event.send COMMAND_FAILED_RESPONSE])
      ∧ TurnoutCommandAdapter.process enabled
          [Turnout.new 5 10 2 false TurnoutType.LEFT, Turnout.new 6 11 (-1) true TurnoutType.LEFT]
          []
        = some ([Turnout.new 5 10 2 false TurnoutType.LEFT,
                 Turnout.new 6 11 (-1) true TurnoutType.LEFT],
                [Event.print "<H 5 10 2 0>", Event.print "<H 6 11 2 1>"]) := by
  cases enabled <;> decide

/-! ## Removal -/

theorem remove_scan_spec (f : Turnout → Bool) (turnouts : List Turnout) :
    (scanTurnouts f turnouts 0 none = none ∧ ∀ t ∈ turnouts, f t = false)
      ∨ ∃ pre t post, turnouts = pre ++ t :: post ∧ f t = true
          ∧ (∀ u ∈ post, f u = false)
          ∧ scanTurnouts f turnouts 0 none = some pre.length := by
  by_cases h : ∃ t ∈ turnouts, f t = true
  · obtain ⟨pre, t, post, e, ht, hpost⟩ := exists_last_match f turnouts h
    refine Or.inr ⟨pre, t, post, e, ht, hpost, ?_⟩
    rw [e, scanTurnouts_last_match f pre post t 0 none ht hpost]
    simp
  · have hnone : ∀ u ∈ turnouts, f u = false := by
      intro u hu
      cases hfu : f u with
      | false => rfl
      | true => exact absurd ⟨u, hu, hfu⟩ h
    exact Or.inl ⟨scanTurnouts_no_match f turnouts 0 none hnone, hnone⟩

/-- C23. For every store and every id, `removeByID(id)` returns true if and
only if some turnout has that id; when it returns false the store is
unchanged, and when it returns true exactly one turnout, one with that id, is
removed: the count decreases by one and the remaining turnouts keep their
fields and their relative order. The same holds for `removeByAddress` and the
address. -/
theorem remove_returns_found_and_removes_one (turnouts : List Turnout) (key : Nat) :
    ((removeByID turnouts key).2 = true ↔ ∃ t ∈ turnouts, t._turnoutID = key)
      ∧ ((removeByID turnouts key).2 = false → (removeByID turnouts key).1 = turnouts)
      ∧ ((removeByID turnouts key).2 = true →
          ∃ pre t post, turnouts = pre ++ t :: post ∧ t._turnoutID = key
            ∧ (removeByID turnouts key).1 = pre ++ post
            ∧ (removeByID turnouts key).1.length + 1 = turnouts.length)
      ∧ ((removeByAddress turnouts key).2 = true ↔ ∃ t ∈ turnouts, t._address = key)
      ∧ ((removeByAddress turnouts key).2 = false → (removeByAddress turnouts key).1 = turnouts)
      ∧ ((removeByAddress turnouts key).2 = true →
          ∃ pre t post, turnouts = pre ++ t :: post ∧ t._address = key
            ∧ (removeByAddress turnouts key).1 = pre ++ post
            ∧ (removeByAddress turnouts key).1.length + 1 = turnouts.length) := by
  have hid := remove_scan_spec (fun u => decide (u._turnoutID = key)) turnouts
  have haddr := remove_scan_spec (fun u => decide (u._address = key)) turnouts
  refine ⟨?_, ?_, ?_, ?_, ?_, ?_⟩
  · rcases hid with ⟨hs, hnone⟩ | ⟨pre, t, post, e, ht, _, hs⟩
    · simp only [removeByID, getTurnoutByID, hs]
      constructor
      · intro h
        cases h
      · rintro ⟨t, ht, hk⟩
        have := hnone t ht
        simp [hk] at this
    · simp only [removeByID, getTurnoutByID, hs]
      refine ⟨fun _ => ⟨t, ?_, by simpa using ht⟩, fun _ => trivial⟩
      rw [e]
      simp
  · rcases hid with ⟨hs, _⟩ | ⟨pre, t, post, e, ht, _, hs⟩
    · simp only [removeByID, getTurnoutByID, hs]
      intro _
      trivial
    · simp only [removeByID, getTurnoutByID, hs]
      intro h
      cases h
  · rcases hid with ⟨hs, _⟩ | ⟨pre, t, post, e, ht, _, hs⟩
    · simp only [removeByID, getTurnoutByID, hs]
      intro h
      cases h
    · simp only [removeByID, getTurnoutByID, hs]
      intro _
      refine ⟨pre, t, post, e, by simpa using ht, ?_, ?_⟩
      · rw [e, eraseIdx_append_cons]
      · rw [e, eraseIdx_append_cons]
        simp
        omega
  · rcases haddr with ⟨hs, hnone⟩ | ⟨pre, t, post, e, ht, _, hs⟩
    · simp only [removeByAddress, getTurnoutByAddress, hs]
      constructor
      · intro h
        cases h
      · rintro ⟨t, ht, hk⟩
        have := hnone t ht
        simp [hk] at this
    · simp only [removeByAddress, getTurnoutByAddress, hs]
      refine ⟨fun _ => ⟨t, ?_, by simpa using ht⟩, fun _ => trivial⟩
      rw [e]
      simp
  · rcases haddr with ⟨hs, _⟩ | ⟨pre, t, post, e, ht, _, hs⟩
    · simp only [removeByAddress, getTurnoutByAddress, hs]
      intro _
      trivial
    · simp only [removeByAddress, getTurnoutByAddress, hs]
      intro h
      cases h
  · rcases haddr with ⟨hs, _⟩ | ⟨pre, t, post, e, ht, _, hs⟩
    · simp only [removeByAddress, getTurnoutByAddress, hs]
      intro h
      cases h
    · simp only [removeByAddress, getTurnoutByAddress, hs]
      intro _
      refine ⟨pre, t, post, e, by simpa using ht, ?_, ?_⟩
      · rw [e, eraseIdx_append_cons]
      · rw [e, eraseIdx_append_cons]
        simp
        omega

/-! ## Roster export: a miss is an absent result -/

theorem insertMember_cons (member : String × Json) (members : List (String × Json)) :
    ∃ first rest, insertMember member members = first :: rest := by
  cases members with
  | nil => exact ⟨member, [], rfl⟩
  | cons a l =>
    unfold insertMember
    split
    · exact ⟨_, _, rfl⟩
    · split
      · exact ⟨_, _, rfl⟩
      · exact ⟨_, _, rfl⟩

theorem dump_object_cons_data (first : String × Json) (rest : List (String × Json)) :
    ∃ tail, (Json.object (first :: rest)).dump.data
      = Char.ofNat 123 :: quoteChar :: tail := by
  obtain ⟨key, value⟩ := first
  simp only [Json.dump, dumpMembers, dumpString, String.data_append]
  exact ⟨_, rfl⟩

theorem dump_object_cons_ne (first : String × Json) (rest : List (String × Json)) :
    (Json.object (first :: rest)).dump ≠ "\x7b\x7d" := by
  intro h
  obtain ⟨tail, ht⟩ := dump_object_cons_data first rest
  rw [h] at ht
  have h2 : ("\x7b\x7d" : String).data = [Char.ofNat 123, Char.ofNat 125] := by decide
  rw [h2] at ht
  simp only [List.cons.injEq, true_and] at ht
  have h3 : Char.ofNat 125 ≠ quoteChar := by decide
  exact h3 ht.1

theorem to_json_dump_ne (names : TrainJsonNames) (t : Esp32PersistentTrainData) :
    (to_json names t).dump ≠ "\x7b\x7d" := by
  unfold to_json objectOf
  simp only [List.foldl]
  obtain ⟨first, rest, h⟩ := insertMember_cons
    (names.JSON_MODE_NODE, Json.string (names.dccModeText t.mode))
    (insertMember
      (names.JSON_FUNCTIONS_NODE,
        Json.array (t.functions.map (fun f => Json.string (names.symbolsText f))))
      (insertMember (names.JSON_DEFAULT_ON_THROTTLE_NODE, Json.bool t.show_on_limited_throttles)
        (insertMember (names.JSON_IDLE_ON_STARTUP_NODE, Json.bool t.automatic_idle)
          (insertMember (names.JSON_ADDRESS_NODE, Json.number t.address)
            (insertMember (names.JSON_NAME_NODE, Json.string t.name) [])))))
  rw [h]
  exact dump_object_cons_ne first rest

/-- C24. A lookup miss is an absent result, not an error. For every roster and
address, `get_entry(address)` returns an entry of the roster whose legacy
address is the requested one if at least one such entry exists, and null
exactly when none exists; `get_train_as_json(address)` returns the text of the
empty object exactly when no entry has that address; and
`get_train_list_as_json` returns `[]` for an empty roster. -/
theorem lookup_miss_is_absent (names : TrainJsonNames) (db : Esp32TrainDatabase)
    (address : Nat) :
    (∀ e, db.get_entry address = some e →
        e ∈ db.knownTrains_ ∧ e.get_legacy_address = address)
      ∧ ((∃ e ∈ db.knownTrains_, e.get_legacy_address = address) →
          ∃ e, db.get_entry address = some e ∧ e.get_legacy_address = address)
      ∧ (db.get_entry address = none ↔ ∀ e ∈ db.knownTrains_, e.get_legacy_address ≠ address)
      ∧ (db.get_train_as_json names address = "\x7b\x7d"
          ↔ ∀ e ∈ db.knownTrains_, e.get_legacy_address ≠ address)
      ∧ (db.knownTrains_ = [] → db.get_train_list_as_json names = "[]") := by
  refine ⟨?_, ?_, ?_, ?_, ?_⟩
  · intro e h
    exact find_address_some h
  · intro h
    obtain ⟨e, he⟩ := find_address_of_mem h
    exact ⟨e, he, (find_address_some he).2⟩
  · exact find_address_none
  · unfold Esp32TrainDatabase.get_train_as_json
    cases h : FIND_TRAIN_BY_ADDRESS db.knownTrains_ address with
    | none =>
      simp only [true_iff]
      exact find_address_none.mp h
    | some e =>
      simp only []
      constructor
      · intro hd
        exact absurd hd (to_json_dump_ne names e.get_data)
      · intro hnone
        exact absurd (find_address_some h).2 (hnone e (find_address_some h).1)
  · intro h
    unfold Esp32TrainDatabase.get_train_list_as_json
    rw [h]
    rfl

theorem lookup_miss_is_absent_witness :
    Esp32TrainDatabase.get_train_list_as_json
        { JSON_NAME_NODE := "name", JSON_ADDRESS_NODE := "address",
          JSON_IDLE_ON_STARTUP_NODE := "idle", JSON_DEFAULT_ON_THROTTLE_NODE := "throttle",
          JSON_FUNCTIONS_NODE := "functions", JSON_MODE_NODE := "mode",
          dccModeText := fun _ => "DCC", symbolsText := fun _ => "N/A" }
        { knownTrains_ := [], dirty_ := false, legacyEntriesFound_ := false } = "[]" :=
  (lookup_miss_is_absent
      { JSON_NAME_NODE := "name", JSON_ADDRESS_NODE := "address",
        JSON_IDLE_ON_STARTUP_NODE := "idle", JSON_DEFAULT_ON_THROTTLE_NODE := "throttle",
        JSON_FUNCTIONS_NODE := "functions", JSON_MODE_NODE := "mode",
        dccModeText := fun _ => "DCC", symbolsText := fun _ => "N/A" }
      { knownTrains_ := [], dirty_ := false, legacyEntriesFound_ := false } 3).2.2.2.2 rfl

/-! ## Accessory packet: decoding -/

theorem byte0_decode : ∀ x : Fin 64,
    0x80 ≤ 0x80 + x.val ∧ 0x80 + x.val ≤ 0xBF ∧ (0x80 + x.val) &&& 0x3F = x.val := by decide

theorem byte1_decode : ∀ (y : Fin 8) (z : Fin 4) (c : Fin 2),
    (((y.val <<< 4) + (z.val <<< 1) + c.val) ^^^ 0xF8) &&& 0x88 = 0x88
      ∧ ((255 - (((y.val <<< 4) + (z.val <<< 1) + c.val) ^^^ 0xF8)) >>> 4) &&& 7 = y.val
      ∧ ((((y.val <<< 4) + (z.val <<< 1) + c.val) ^^^ 0xF8) >>> 1) &&& 3 = z.val
      ∧ (((y.val <<< 4) + (z.val <<< 1) + c.val) ^^^ 0xF8) &&& 1 = c.val := by decide

theorem accessory_decode (b i : Nat) (a : Bool) :
    (0x80 ≤ accessoryByte0 b ∧ accessoryByte0 b ≤ 0xBF)
      ∧ accessoryByte1 b i a &&& 0x88 = 0x88
      ∧ (accessoryByte0 b &&& 0x3F) + 64 * (((255 - accessoryByte1 b i a) >>> 4) &&& 7)
          = b % 512
      ∧ (accessoryByte1 b i a >>> 1) &&& 3 = i % 4
      ∧ accessoryByte1 b i a &&& 1 = a.toNat := by
  have h0 := byte0_decode ⟨b % 64, Nat.mod_lt _ (by decide)⟩
  have h1 := byte1_decode ⟨(b / 64) % 8, Nat.mod_lt _ (by decide)⟩
    ⟨i % 4, Nat.mod_lt _ (by decide)⟩ ⟨a.toNat, toNat_lt_two a⟩
  simp only [] at h0 h1
  refine ⟨⟨h0.1, h0.2.1⟩, h1.1, ?_, h1.2.2.1, h1.2.2.2⟩
  have e0 : accessoryByte0 b &&& 0x3F = b % 64 := h0.2.2
  have e1 : ((255 - accessoryByte1 b i a) >>> 4) &&& 7 = (b / 64) % 8 := h1.2.1
  rw [e0, e1]
  omega

theorem accessoryPacket_eq_bytes (b i : Nat) (a : Bool) :
    accessoryPacket b i a = [accessoryByte0 b, accessoryByte1 b i a] := by
  have h := byte1_lt ⟨(b / 64) % 8, Nat.mod_lt _ (by decide)⟩
    ⟨i % 4, Nat.mod_lt _ (by decide)⟩ ⟨a.toNat, toNat_lt_two a⟩
  have l1 : accessoryByte1 b i a < 256 := h
  have l0 : accessoryByte0 b < 256 := by unfold accessoryByte0; omega
  unfold accessoryPacket
  rw [Nat.mod_eq_of_lt l0, Nat.mod_eq_of_lt l1]

/-- C25. The accessory packet is decodable: for every boardAddress `b`,
boardIndex `i` and activate flag the packet is the two bytes byte0, byte1 with
`0x80 <= byte0 <= 0xBF`, bits 7 and 3 of byte1 set,
`(byte0 & 0x3F) + 64 * ((~byte1 >> 4) & 7) = b mod 512` (the complement taken
in 8 bits), `(byte1 >> 1) & 3 = i mod 4` and `byte1 & 1 = activate`. Hence the
encoding is injective on `b < 512`, `i < 4`, and every input encodes exactly as
(`b mod 512`, `i mod 4`). -/
theorem accessoryPacket_decodable (b i : Nat) (a : Bool) :
    accessoryPacket b i a = [accessoryByte0 b, accessoryByte1 b i a]
      ∧ (0x80 ≤ accessoryByte0 b ∧ accessoryByte0 b ≤ 0xBF)
      ∧ accessoryByte1 b i a &&& 0x88 = 0x88
      ∧ (accessoryByte0 b &&& 0x3F) + 64 * (((255 - accessoryByte1 b i a) >>> 4) &&& 7)
          = b % 512
      ∧ (accessoryByte1 b i a >>> 1) &&& 3 = i % 4
      ∧ accessoryByte1 b i a &&& 1 = a.toNat
      ∧ (∀ (b2 i2 : Nat) (a2 : Bool), b < 512 → i < 4 → b2 < 512 → i2 < 4 →
          accessoryPacket b2 i2 a2 = accessoryPacket b i a → b2 = b ∧ i2 = i ∧ a2 = a)
      ∧ accessoryPacket b i a = accessoryPacket (b % 512) (i % 4) a := by
  obtain ⟨hr, h88, hb, hi, ha⟩ := accessory_decode b i a
  refine ⟨accessoryPacket_eq_bytes b i a, hr, h88, hb, hi, ha, ?_, ?_⟩
  · intro b2 i2 a2 hb1 hi1 hb2 hi2 heq
    rw [accessoryPacket_eq_bytes, accessoryPacket_eq_bytes] at heq
    simp only [List.cons.injEq, and_true] at heq
    obtain ⟨_, _, hb', hi', ha'⟩ := accessory_decode b2 i2 a2
    rw [heq.1, heq.2] at hb'
    rw [heq.2] at hi' ha'
    refine ⟨?_, ?_, ?_⟩
    · rw [hb] at hb'
      omega
    · rw [hi] at hi'
      omega
    · rw [ha] at ha'
      cases a <;> cases a2 <;> first | rfl | (exact absurd ha' (by decide))
  · rw [accessoryPacket_eq_bytes, accessoryPacket_eq_bytes]
    have e1 : b % 512 % 64 = b % 64 := by omega
    have e2 : b % 512 / 64 % 8 = b / 64 % 8 := by omega
    have e3 : i % 4 % 4 = i % 4 := by omega
    unfold accessoryByte0 accessoryByte1
    rw [e1, e2, e3]

theorem accessoryPacket_decodable_witness :
    accessoryPacket 3 1 true = [accessoryByte0 3, accessoryByte1 3 1 true]
      ∧ (3 < 512 ∧ 1 < 4)
      ∧ (3 = 3 ∧ 1 = 1 ∧ true = true) :=
  ⟨(accessoryPacket_decodable 3 1 true).1, ⟨by decide, by decide⟩,
   (accessoryPacket_decodable 3 1 true).2.2.2.2.2.2.1 3 1 true (by decide) (by decide)
     (by decide) (by decide) rfl⟩

/-! ## Record round trip of a fresh turnout -/

/-- C26. For every (id, address, index, thrown, type) passed to the `Turnout`
constructor, whether the index is -1 or explicit and also for address 0 with
index -1 (derived board address 0), the freshly constructed turnout survives
the JSON round trip: the turnout constructed from its `toJson` record (boolean
state form) is the same turnout, with the same id, address, boardAddress,
boardIndex, type and thrown state. -/
theorem fresh_turnout_roundtrip (thrownText closedText : String) (id address : Nat)
    (index : Int) (thrown : Bool) (type : TurnoutType)
    (hid : id < 65536) (haddress : address < 65536)
    (hindex : -128 ≤ index ∧ index ≤ 127) :
    Turnout.fromJson
        (Turnout.toJson thrownText closedText (Turnout.new id address index thrown type) false)
      = Turnout.new id address index thrown type := by
  apply fromJson_toJson_of_consistent
  · rw [Turnout.new_id]
    exact hid
  · rw [Turnout.new_address]
    exact haddress
  · unfold Turnout.new
    by_cases h : index = -1
    · simp only [h, if_true]
      rw [calculate_eq address haddress]
      simp only []
      by_cases hz : (address + 3) / 4 = 0
      · left
        exact ⟨hz, by omega⟩
      · right
        exact ⟨hz, trivial⟩
    · simp only [h, if_false]
      left
      refine ⟨trivial, ?_⟩
      unfold toUInt8
      omega

theorem fresh_turnout_roundtrip_witness :
    Turnout.fromJson
        (Turnout.toJson "Thrown" "Closed" (Turnout.new 5 0 (-1) true TurnoutType.WYE) false)
      = Turnout.new 5 0 (-1) true TurnoutType.WYE
    ∧ (Turnout.new 5 0 (-1) true TurnoutType.WYE)._boardAddress = 0 :=
  ⟨fresh_turnout_roundtrip "Thrown" "Closed" 5 0 (-1) true TurnoutType.WYE (by decide)
    (by decide) (by decide), by decide⟩

/-! ## Turnout ids stay unique -/

theorem modifyAt_map_id (f : Turnout → Turnout)
    (hf : ∀ t, (f t)._turnoutID = t._turnoutID) (l : List Turnout) (p : Nat) :
    (modifyAt f l p).map Turnout._turnoutID = l.map Turnout._turnoutID := by
  induction l generalizing p with
  | nil => rfl
  | cons a l ih =>
    cases p with
    | zero => simp [modifyAt, hf]
    | succ k => simp [modifyAt, ih]

theorem set_append_cons (pre post : List Turnout) (t u : Turnout) :
    (pre ++ t :: post).set pre.length u = pre ++ u :: post := by
  induction pre with
  | nil => rfl
  | cons a l ih =>
    have e : (a :: l) ++ t :: post = a :: (l ++ t :: post) := rfl
    rw [e, List.length_cons, List.set_cons_succ, ih]
    rfl

theorem applyAt_ids (f : Turnout → Option (Turnout × List Event))
    (hf : ∀ t, ∃ changed events, f t = some (changed, events)
      ∧ changed._turnoutID = t._turnoutID)
    (pre post : List Turnout) (t : Turnout) :
    ∃ after events, applyAt f (pre ++ t :: post) pre.length = some (after, events)
      ∧ after.map Turnout._turnoutID = (pre ++ t :: post).map Turnout._turnoutID := by
  obtain ⟨changed, events, hft, hid⟩ := hf t
  refine ⟨pre ++ changed :: post, events, ?_, ?_⟩
  · unfold applyAt
    rw [getElem?_append_cons]
    simp only [hft]
    rw [set_append_cons]
  · simp [hid]

theorem set_keeps_id (enabled thrown : Bool) (t : Turnout) :
    ∃ changed events, Turnout.set enabled t thrown true = some (changed, events)
      ∧ changed._turnoutID = t._turnoutID := by
  obtain ⟨events, h⟩ := Turnout.set_eq_some enabled t thrown true
  exact ⟨_, events, h, rfl⟩

theorem toggle_keeps_id (enabled : Bool) (t : Turnout) :
    ∃ changed events, Turnout.toggle enabled t = some (changed, events)
      ∧ changed._turnoutID = t._turnoutID :=
  set_keeps_id enabled (!t._thrown) t

theorem lookup_then_apply_ids (f : Turnout → Option (Turnout × List Event))
    (hf : ∀ t, ∃ changed events, f t = some (changed, events)
      ∧ changed._turnoutID = t._turnoutID)
    (isMatch : Turnout → Bool) (turnouts : List Turnout) :
    ∃ result : List Turnout × List Event × Bool,
      (match scanTurnouts isMatch turnouts 0 none with
        | some position =>
          match applyAt f turnouts position with
          | some (changed, events) => some (changed, events, true)
          | none => none
        | none => some (turnouts, [], false)) = some result
      ∧ result.1.map Turnout._turnoutID = turnouts.map Turnout._turnoutID := by
  rcases remove_scan_spec isMatch turnouts with ⟨hs, _⟩ | ⟨pre, t, post, e, _, _, hs⟩
  · rw [hs]
    exact ⟨_, rfl, rfl⟩
  · rw [hs]
    subst e
    obtain ⟨after, events, ha, hids⟩ := applyAt_ids f hf pre post t
    simp only [ha]
    exact ⟨_, rfl, hids⟩

theorem createOrUpdate_ids (turnouts : List Turnout) (id address : Nat) (index : Int)
    (type : TurnoutType) :
    ((∃ t ∈ turnouts, t._turnoutID = id)
        ∧ (createOrUpdate turnouts id address index type).1.map Turnout._turnoutID
          = turnouts.map Turnout._turnoutID)
      ∨ ((∀ t ∈ turnouts, t._turnoutID ≠ id)
        ∧ (createOrUpdate turnouts id address index type).1.map Turnout._turnoutID
          = turnouts.map Turnout._turnoutID ++ [id]) := by
  rcases remove_scan_spec (fun u => decide (u._turnoutID = id)) turnouts with
    ⟨hs, hnone⟩ | ⟨pre, t, post, e, ht, _, hs⟩
  · right
    refine ⟨fun t ht => by simpa using hnone t ht, ?_⟩
    simp only [createOrUpdate, getTurnoutByID, hs, List.map_append, List.map_cons, List.map_nil,
      Turnout.new_id]
  · left
    refine ⟨⟨t, by rw [e]; simp, by simpa using ht⟩, ?_⟩
    simp only [createOrUpdate, getTurnoutByID, hs]
    exact modifyAt_map_id _ (fun u => Turnout.update_id u address index type) turnouts _

/-- C27. Id uniqueness is an invariant of the mutating operations of the turnout
store: if the ids in the store are pairwise distinct, they are pairwise
distinct after `createOrUpdate`, `removeByID`, `removeByAddress`, `setByID`,
`toggleByID` and `toggleByAddress` (the last three always return). None of
them changes the id of an existing turnout: the list of ids afterwards is the
list before, or that list with the new id appended (`createOrUpdate`), or a
sublist of it (the removals). -/
theorem turnout_ids_stay_unique (enabled : Bool) (turnouts : List Turnout)
    (id address : Nat) (index : Int) (type : TurnoutType) (thrown : Bool)
    (h : (turnouts.map Turnout._turnoutID).Nodup) :
    (((createOrUpdate turnouts id address index type).1.map Turnout._turnoutID).Nodup
        ∧ ((createOrUpdate turnouts id address index type).1.map Turnout._turnoutID
              = turnouts.map Turnout._turnoutID
            ∨ (createOrUpdate turnouts id address index type).1.map Turnout._turnoutID
              = turnouts.map Turnout._turnoutID ++ [id]))
      ∧ (((removeByID turnouts id).1.map Turnout._turnoutID).Nodup
        ∧ ((removeByID turnouts id).1.map Turnout._turnoutID).Sublist
            (turnouts.map Turnout._turnoutID))
      ∧ (((removeByAddress turnouts address).1.map Turnout._turnoutID).Nodup
        ∧ ((removeByAddress turnouts address).1.map Turnout._turnoutID).Sublist
            (turnouts.map Turnout._turnoutID))
      ∧ (∃ result, setByID enabled turnouts id thrown = some result
        ∧ result.1.map Turnout._turnoutID = turnouts.map Turnout._turnoutID
        ∧ (result.1.map Turnout._turnoutID).Nodup)
      ∧ (∃ result, toggleByID enabled turnouts id = some result
        ∧ result.1.map Turnout._turnoutID = turnouts.map Turnout._turnoutID
        ∧ (result.1.map Turnout._turnoutID).Nodup)
      ∧ (∃ result, toggleByAddress enabled turnouts address = some result
        ∧ result.1.map Turnout._turnoutID = turnouts.map Turnout._turnoutID
        ∧ (result.1.map Turnout._turnoutID).Nodup) := by
  have hsubID : ((removeByID turnouts id).1.map Turnout._turnoutID).Sublist
      (turnouts.map Turnout._turnoutID) := by
    unfold removeByID
    split
    · exact (List.eraseIdx_sublist _ _).map _
    · exact List.Sublist.refl _
  have hsubAddr : ((removeByAddress turnouts address).1.map Turnout._turnoutID).Sublist
      (turnouts.map Turnout._turnoutID) := by
    unfold removeByAddress
    split
    · exact (List.eraseIdx_sublist _ _).map _
    · exact List.Sublist.refl _
  refine ⟨?_, ⟨h.sublist hsubID, hsubID⟩, ⟨h.sublist hsubAddr, hsubAddr⟩, ?_, ?_, ?_⟩
  · rcases createOrUpdate_ids turnouts id address index type with ⟨_, e⟩ | ⟨habs, e⟩
    · exact ⟨e ▸ h, Or.inl e⟩
    · refine ⟨?_, Or.inr e⟩
      rw [e, List.nodup_append]
      refine ⟨h, List.nodup_singleton id, ?_⟩
      intro x hx hx2
      rw [List.mem_singleton] at hx2
      obtain ⟨t, ht, hid⟩ := List.mem_map.mp hx
      exact habs t ht (hid.trans hx2)
  · obtain ⟨result, hr, hids⟩ := lookup_then_apply_ids
      (fun turnout => turnout.set enabled thrown true) (set_keeps_id enabled thrown)
      (fun u => decide (u._turnoutID = id)) turnouts
    exact ⟨result, hr, hids, hids ▸ h⟩
  · obtain ⟨result, hr, hids⟩ := lookup_then_apply_ids
      (fun turnout => turnout.toggle enabled) (toggle_keeps_id enabled)
      (fun u => decide (u._turnoutID = id)) turnouts
    exact ⟨result, hr, hids, hids ▸ h⟩
  · obtain ⟨result, hr, hids⟩ := lookup_then_apply_ids
      (fun turnout => turnout.toggle enabled) (toggle_keeps_id enabled)
      (fun u => decide (u._address = address)) turnouts
    exact ⟨result, hr, hids, hids ▸ h⟩

theorem turnout_ids_stay_unique_witness :
    ([Turnout.new 1 7 0 false TurnoutType.LEFT,
      Turnout.new 2 7 0 false TurnoutType.LEFT].map Turnout._turnoutID).Nodup
    ∧ ((removeByAddress
          [Turnout.new 1 7 0 false TurnoutType.LEFT, Turnout.new 2 7 0 false TurnoutType.LEFT]
          7).1.map Turnout._turnoutID).Nodup :=
  ⟨by decide,
   (turnout_ids_stay_unique true
      [Turnout.new 1 7 0 false TurnoutType.LEFT, Turnout.new 2 7 0 false TurnoutType.LEFT]
      1 7 0 TurnoutType.LEFT true (by decide)).2.2.1.1⟩

/-! ## Creating a turnout by address -/

theorem turnout_ex_create_appends_when_id_free (enabled : Bool) (turnouts : List Turnout)
    (a0 a1 a2 : String) (more : List String) (h0 : toInt a0 ≤ 0)
    (haddr : ∀ t ∈ turnouts, t._address ≠ toUInt16 (toInt a1))
    (hid : ∀ t ∈ turnouts,
      t._turnoutID ≠ toUInt16 ((getTurnoutCount turnouts : Int) + 1)) :
    TurnoutExCommandAdapter.process enabled turnouts (a0 :: a1 :: a2 :: more)
      = some (turnouts
          ++ [Turnout.new (toUInt16 ((getTurnoutCount turnouts : Int) + 1))
                (toUInt16 (toInt a1)) (-1) false (toInt a2)], []) := by
  have hA : getTurnoutByAddress turnouts (toUInt16 (toInt a1)) = none := by
    unfold getTurnoutByAddress
    exact scanTurnouts_no_match _ turnouts 0 none (fun t ht => by simpa using haddr t ht)
  have hI : getTurnoutByID turnouts (toUInt16 ((getTurnoutCount turnouts : Int) + 1))
      = none := by
    unfold getTurnoutByID
    exact scanTurnouts_no_match _ turnouts 0 none (fun t ht => by simpa using hid t ht)
  unfold TurnoutExCommandAdapter.process
  simp only []
  rw [if_neg (by omega)]
  simp only [hA, createOrUpdate, hI]

/-- C28. Evaluation at the failing input: the store holds one turnout, id 2 at
address 10, and the arguments are 0, 20, 0; address 20 is used by no turnout.
`getTurnoutCount() + 1` is 2, an id in use, so `createOrUpdate` updates
turnout 2 instead of adding a turnout: the count stays 1 and the turnout
defined before now has address 20 and board 5, index 3. On a store whose one
turnout has id 1 the same arguments add turnout 2 and leave turnout 1 as it
was. -/
theorem turnout_ex_create_reuses_id_in_use :
    getTurnoutByAddress [Turnout.new 2 10 (-1) false TurnoutType.LEFT] 20 = none
      ∧ TurnoutExCommandAdapter.process true [Turnout.new 2 10 (-1) false TurnoutType.LEFT]
          ["0", "20", "0"]
        = some ([{ _turnoutID := 2, _address := 20, _index := 3, _boardAddress := 5,
                   _thrown := false, _type := TurnoutType.LEFT }], [])
      ∧ TurnoutExCommandAdapter.process true [Turnout.new 1 10 (-1) false TurnoutType.LEFT]
          ["0", "20", "0"]
        = some ([Turnout.new 1 10 (-1) false TurnoutType.LEFT,
                 { _turnoutID := 2, _address := 20, _index := 3, _boardAddress := 5,
                   _thrown := false, _type := TurnoutType.LEFT }], []) := by
  decide

end ESP32CS
